import Mathlib

/-!
Verification of the image-gen-test-tool core: provider adapters, the shared
JSON image-extraction walk, the Alibaba async poll loop, the auto-crop
preprocessor, the request model validation, and the image-dimension codec.

Python strings are modelled as `List Char`; parsed JSON values as the mutual
inductive `J`/`JArr`/`JObj`; machine integers as `Nat`/`Int`; the float
arithmetic of the auto-crop fit computation as exact rationals with Python's
banker's rounding made explicit.
-/

/-- A Python string, modelled as its character list. -/
abbrev PyStr := List Char

/-- `str.lower()` (ASCII, as used on JSON keys and status strings). -/
def lowerStr (s : PyStr) : PyStr := s.map Char.toLower

/-- `str.upper()` (ASCII). -/
def upperStr (s : PyStr) : PyStr := s.map Char.toUpper

/-- Python's `needle in haystack` substring test. -/
def containsStr (hay needle : PyStr) : Bool :=
  match hay with
  | [] => needle.isEmpty
  | _ :: t => needle.isPrefixOf hay || containsStr t needle

/-- Python's `s.startswith(pre)`. -/
def startsWithStr (s pre : PyStr) : Bool := pre.isPrefixOf s

/-- Python's `s.strip()` (whitespace on both ends). -/
def stripStr (s : PyStr) : PyStr :=
  (s.dropWhile Char.isWhitespace).reverse.dropWhile Char.isWhitespace |>.reverse

/-- Python truthiness of an optional string: `None` and `""` are falsy. -/
def optStrTruthy : Option PyStr → Bool
  | none => false
  | some s => !s.isEmpty

mutual
/-- A parsed JSON value (the shapes `requests.Response.json()` can return). -/
inductive J where
  | str (s : PyStr)
  | int (n : Int)
  | bool (b : Bool)
  | null
  | arr (items : JArr)
  | obj (fields : JObj)

/-- A JSON array, as its own inductive so that mutual recursion is structural. -/
inductive JArr where
  | nil
  | cons (head : J) (tail : JArr)

/-- A JSON object: an ordered association list of fields (Python dicts keep
insertion order and have unique keys). -/
inductive JObj where
  | nil
  | cons (key : PyStr) (value : J) (tail : JObj)
end

/-- `dict.get(key)`: first binding of `key`, if any. -/
def JObj.get : JObj → PyStr → Option J
  | .nil, _ => none
  | .cons k v rest, key => if k = key then some v else rest.get key

/-- `dict.get(key)` on an arbitrary JSON value (`None` when not a dict). -/
def J.get : J → PyStr → Option J
  | .obj o, key => o.get key
  | _, _ => none

/-- Python truthiness of a parsed JSON value (`if not raw: ...`). -/
def J.falsy : J → Bool
  | .str s => s.isEmpty
  | .int n => n = 0
  | .bool b => !b
  | .null => true
  | .arr .nil => true
  | .arr (.cons _ _) => false
  | .obj .nil => true
  | .obj (.cons _ _ _) => false

/-- The key-marker substrings of `ProviderAdapter._looks_like_image`. -/
def imageKeyMarkers : List PyStr :=
  ["image".toList, "img".toList, "url".toList, "output".toList,
   "result".toList, "generated".toList]

/-- `ProviderAdapter._looks_like_image` (src/adapters/base.py lines 103-115):
lowercases both key and value; an http(s)-prefixed value is an image iff the
lowercase key contains a marker; a `data:image/`-prefixed value always is; a
key containing `b64`/`base64` classifies iff the value is longer than 100. -/
def looks_like_image (key value : PyStr) : Bool :=
  let lowKey := lowerStr key
  let lowVal := lowerStr value
  if startsWithStr lowVal "http://".toList || startsWithStr lowVal "https://".toList then
    imageKeyMarkers.any fun mark => containsStr lowKey mark
  else if startsWithStr lowVal "data:image/".toList then
    true
  else if containsStr lowKey "b64".toList || containsStr lowKey "base64".toList then
    decide (value.length > 100)
  else
    false

mutual
/-- `ProviderAdapter._walk_and_collect` (src/adapters/base.py lines 90-101),
returning the collected strings in traversal order. -/
def walk_and_collect : J → List PyStr
  | .obj o => walkObjCollect o
  | .arr a => walkArrCollect a
  | _ => []

/-- Dict branch of the walk: for each field, a string value is collected when
`_looks_like_image` accepts it, otherwise the walk recurses into the value;
recursing into a rejected string hits the walk's fall-through and collects
nothing, so that call is written as `[]` here. -/
def walkObjCollect : JObj → List PyStr
  | .nil => []
  | .cons k v rest =>
    (match v with
     | .str s => if looks_like_image k s then [s] else []
     | _ => walk_and_collect v) ++ walkObjCollect rest

/-- List branch of the walk. -/
def walkArrCollect : JArr → List PyStr
  | .nil => []
  | .cons x rest => walk_and_collect x ++ walkArrCollect rest
end

/-- The de-duplication pass of `extract_images`: keep the first occurrence of
each string, preserving order (`seen` accumulates what was already emitted). -/
def dedupAux (seen : List PyStr) : List PyStr → List PyStr
  | [] => []
  | x :: xs => if x ∈ seen then dedupAux seen xs else x :: dedupAux (x :: seen) xs

/-- De-duplication preserving first-seen order, as coded in `extract_images`. -/
def dedup (l : List PyStr) : List PyStr := dedupAux [] l

/-- `ProviderAdapter.extract_images` (src/adapters/base.py lines 76-88). -/
def extract_images (raw : J) : List PyStr :=
  if raw.falsy then [] else dedup (walk_and_collect raw)

mutual
/-- All `(key, value)` pairs of the JSON tree whose value is a string, in the
order the recursive walk visits them. -/
def jStringPairs : J → List (PyStr × PyStr)
  | .obj o => jObjStringPairs o
  | .arr a => jArrStringPairs a
  | _ => []

/-- Dict branch of the pair traversal. -/
def jObjStringPairs : JObj → List (PyStr × PyStr)
  | .nil => []
  | .cons k v rest =>
    (match v with
     | .str s => [(k, s)]
     | _ => jStringPairs v) ++ jObjStringPairs rest

/-- List branch of the pair traversal. -/
def jArrStringPairs : JArr → List (PyStr × PyStr)
  | .nil => []
  | .cons x rest => jStringPairs x ++ jArrStringPairs rest
end

/-- The C1 claim's classifier, written exactly as the claim states it: the
value-prefix tests are on the value itself (case-sensitive), and the three
clauses are a plain disjunction. -/
def claimClassifier (key value : PyStr) : Bool :=
  let lowKey := lowerStr key
  ((imageKeyMarkers.any fun mark => containsStr lowKey mark) &&
    (startsWithStr value "http://".toList || startsWithStr value "https://".toList))
  || startsWithStr value "data:image/".toList
  || ((containsStr lowKey "b64".toList || containsStr lowKey "base64".toList) &&
      decide (value.length > 100))

/-- The strings the walk classifies, per the source classifier. -/
def classifiedValues (j : J) : List PyStr :=
  ((jStringPairs j).filter fun p => looks_like_image p.1 p.2).map Prod.snd

/-- The strings the C1 claim says should be collected. -/
def claimValues (j : J) : List PyStr :=
  ((jStringPairs j).filter fun p => claimClassifier p.1 p.2).map Prod.snd

/-- The JSON body `{"image_url": "HTTP://A"}`: the code's classifier lowercases
the value before the `http://` prefix test, so the walk collects `"HTTP://A"`,
while the claim's literal condition rejects it. -/
def c1Json : J := J.obj (.cons "image_url".toList (.str "HTTP://A".toList) .nil)

/-- The provider enum of `core/models.py`. -/
inductive Provider where
  | alibaba
  | google
  | glm
deriving DecidableEq

/-- The task-type enum of `core/models.py`. -/
inductive TaskType where
  | text2image
  | image2image
deriving DecidableEq

/-- `GenerationRequest` (src/core/models.py lines 11-23): the unified request
value, before validation. -/
structure GenReq where
  provider : Provider
  model : PyStr
  task_type : TaskType
  prompt : PyStr
  negative_prompt : Option PyStr := none
  input_image : Option PyStr := none
  size : Option PyStr := none
  n : Int := 1
  seed : Option Int := none
  extra : JObj := .nil

/-- The pydantic validation of `GenerationRequest` (src/core/models.py lines
15-50): `model`/`prompt` must have length ≥ 1 and a non-blank strip; `size`
and `negative_prompt`, when present, must strip non-blank; `n ≥ 1`; and
`ensure_task_fields` rejects an `image_to_image` request whose `input_image`
is Python-falsy (`None` or the empty string). -/
def requestValid (r : GenReq) : Bool :=
  decide (1 ≤ r.model.length) && !(stripStr r.model).isEmpty &&
  decide (1 ≤ r.prompt.length) && !(stripStr r.prompt).isEmpty &&
  (match r.size with | none => true | some s => !(stripStr s).isEmpty) &&
  (match r.negative_prompt with | none => true | some s => !(stripStr s).isEmpty) &&
  decide (1 ≤ r.n) &&
  (match r.task_type with
   | .image2image => optStrTruthy r.input_image
   | .text2image => true)

/-- An `image_to_image` request whose `input_image` is a single space. -/
def c6Req : GenReq :=
  { provider := .alibaba
    model := "wan2.6-i2i".toList
    task_type := .image2image
    prompt := "restyle".toList
    input_image := some " ".toList }

/-- The Euclidean loop of `_reduce_ratio` (src/adapters/google.py lines
157-162), with structural fuel: `while right: left, right = right, left %
right`. Any fuel above `right` suffices, since `right` strictly decreases. -/
def euclidLoopAux : Nat → Nat → Nat → Nat
  | 0, left, _ => left
  | fuel + 1, left, right =>
    if right = 0 then left else euclidLoopAux fuel right (left % right)

/-- The Euclidean loop of `_reduce_ratio`. -/
def euclidLoop (left right : Nat) : Nat := euclidLoopAux (right + 1) left right

/-- Python `str.isdigit()` restricted to ASCII: non-empty and all digits. -/
def isDigits (s : PyStr) : Bool := !s.isEmpty && s.all fun c => c.isDigit

/-- Python `int(...)` on a digit string. -/
def digitsToNat (s : PyStr) : Nat := s.foldl (fun a c => 10 * a + (c.toNat - 48)) 0

/-- Python `str(n)` for a natural number, written with structural fuel (any
fuel above `n` computes the decimal digits). -/
def natToStrAux : Nat → Nat → PyStr
  | 0, _ => []
  | fuel + 1, n =>
    if n < 10 then [Char.ofNat (48 + n)]
    else natToStrAux fuel (n / 10) ++ [Char.ofNat (48 + n % 10)]

/-- Python `str(n)` for a natural number. -/
def natToStr (n : Nat) : PyStr := natToStrAux (n + 1) n

/-- `s.split(c, 1)`: the parts before and after the first occurrence of `c`
(the second component is empty when `c` does not occur). -/
def splitFirst : PyStr → Char → PyStr × PyStr
  | [], _ => ([], [])
  | a :: rest, c =>
    if a = c then ([], rest)
    else
      let p := splitFirst rest c
      (a :: p.1, p.2)

/-- `_reduce_ratio` (src/adapters/google.py lines 157-162). -/
def reduceAspect (width height : Nat) : PyStr :=
  let left := euclidLoop width height
  natToStr (width / left) ++ ':' :: natToStr (height / left)

/-- The supported aspect-ratio strings of `_size_to_aspect_ratio`. -/
def supportedAspects : List PyStr :=
  ["1:1".toList, "3:4".toList, "4:3".toList, "9:16".toList, "16:9".toList]

/-- `GoogleAdapter._size_to_aspect_ratio` (src/adapters/google.py lines
138-154): reject falsy sizes and sizes without a (lowercase) `x`; split the
lowercased size at the first `x`; both parts must be digits and positive;
reduce and keep the ratio only when it is in the supported set. -/
def size_to_aspect (size : Option PyStr) : Option PyStr :=
  match size with
  | none => none
  | some s =>
    if s.isEmpty then none
    else if !containsStr s ['x'] then none
    else
      let p := splitFirst (lowerStr s) 'x'
      if !(isDigits p.1 && isDigits p.2) then none
      else
        let width := digitsToNat p.1
        let height := digitsToNat p.2
        if width = 0 ∨ height = 0 then none
        else
          let ratio := reduceAspect width height
          if ratio ∈ supportedAspects then some ratio else none

/-- A network action issued by an adapter, in order. -/
inductive NetCall where
  | post (url : PyStr)
  | get (url : PyStr)
deriving DecidableEq

/-- An HTTP response as the adapters consume it: `ok`/status, the parsed JSON
body as `_json_or_text` produces it, the raw content bytes, and the
`content-type` header (for the Google input-image fetch). -/
structure HttpResp where
  ok : Bool
  status : Nat
  body : J
  content : List Nat
  contentType : Option PyStr

/-- The blocking HTTP client, as an oracle from request to response. -/
structure Http where
  post : PyStr → J → HttpResp
  get : PyStr → HttpResp

/-- The external collaborators of the adapters: HTTP, the filesystem (contents
of an existing regular file, `None` otherwise), `mimetypes.guess_type` on the
file's basename, Python's `str()` rendering of a parsed JSON value (used only
inside error messages), and the random fallback identifier `uuid4().hex[:12]`. -/
structure Env where
  http : Http
  fs : PyStr → Option (List Nat)
  guessMime : PyStr → Option PyStr
  reprJ : J → PyStr
  freshId : PyStr

/-- The Python exceptions the adapters raise: `ValueError` (configuration),
`RuntimeError` (API/protocol failures, message retained for the Alibaba
sync-unsupported fallback match), `requests.HTTPError` (`raise_for_status`),
and `TimeoutError`. -/
inductive AErr where
  | config (msg : PyStr)
  | runtime (msg : PyStr)
  | httpStatus (status : Nat)
  | timeout (msg : PyStr)

/-- A computation's issued network calls, in order, together with its result. -/
abbrev TraceRes (α : Type) := List NetCall × Except AErr α

/-- The base64 alphabet. -/
def b64chars : PyStr :=
  "ABCDEFGHIJKLMNOPQRSTUVWXYZabcdefghijklmnopqrstuvwxyz0123456789+/".toList

/-- One base64 output character. -/
def b64char (i : Nat) : Char := b64chars.getD i 'A'

/-- `base64.b64encode` on raw bytes (values < 256), with `=` padding. -/
def b64encode : List Nat → PyStr
  | [] => []
  | [a] => [b64char (a / 4), b64char (a % 4 * 16), '=', '=']
  | [a, b] => [b64char (a / 4), b64char (a % 4 * 16 + b / 16), b64char (b % 16 * 4), '=']
  | a :: b :: c :: rest =>
    [b64char (a / 4), b64char (a % 4 * 16 + b / 16),
     b64char (b % 16 * 4 + c / 64), b64char (c % 64)] ++ b64encode rest

/-- `is_url` (src/core/io_utils.py lines 22-23). -/
def is_url (s : PyStr) : Bool :=
  startsWithStr s "http://".toList || startsWithStr s "https://".toList

/-- `parse_input_image` (src/core/io_utils.py lines 26-42): falsy input →
`None`; URL prefix → `url` kind, verbatim; `data:image/` prefix → `data_uri`
kind, verbatim; an existing regular file → `data_uri` kind built from the
guessed mime (default `application/octet-stream`) and the base64-encoded file
bytes; anything else → raw `base64` kind, verbatim. -/
def parse_input_image (env : Env) : Option PyStr → Option (PyStr × PyStr)
  | none => none
  | some s =>
    if s.isEmpty then none
    else if is_url s then some ("url".toList, s)
    else if startsWithStr s "data:image/".toList then some ("data_uri".toList, s)
    else
      match env.fs s with
      | some bytes =>
        let mime := (env.guessMime s).getD "application/octet-stream".toList
        some ("data_uri".toList,
          "data:".toList ++ mime ++ ";base64,".toList ++ b64encode bytes)
      | none => some ("base64".toList, s)

/-- Replace every occurrence of a (non-empty) pattern, scanning left to right
without overlap — Python's `str.replace` and the `{model}` URL substitution. -/
def replaceStr : PyStr → PyStr → PyStr → PyStr
  | [], _, _ => []
  | a :: rest, pat, rep =>
    if hp : pat.isEmpty then a :: rest
    else if hpre : pat.isPrefixOf (a :: rest) then
      rep ++ replaceStr ((a :: rest).drop pat.length) pat rep
    else a :: replaceStr rest pat rep
termination_by s => s.length
decreasing_by
  · simp only [List.length_drop, List.length_cons]
    have hl : pat.length ≠ 0 := by
      simpa [List.isEmpty_iff, List.length_eq_zero] using hp
    omega
  · simp

/-- Build a JSON object from an ordered field list. -/
def toJObj : List (PyStr × J) → JObj
  | [] => .nil
  | (k, v) :: rest => .cons k v (toJObj rest)

/-- `dict[key] = value` semantics: replace the first matching key in place, or
append the binding at the end. -/
def JObj.setKey : JObj → PyStr → J → JObj
  | .nil, k, v => .cons k v .nil
  | .cons k0 v0 rest, k, v =>
    if k0 = k then .cons k0 v rest else .cons k0 v0 (rest.setKey k v)

/-- `payload.update(extra)`: last-wins shallow merge, keeping the payload's
key positions and appending new keys in the extra map's order. -/
def JObj.update : JObj → JObj → JObj
  | base, .nil => base
  | base, .cons k v rest => (base.setKey k v).update rest

/-- Shared adapter configuration (constructor arguments of `ProviderAdapter`). -/
structure AdapterCfg where
  api_key : PyStr
  text2image_url : PyStr
  image2image_url : PyStr

/-- `ProviderAdapter._resolve_url` (src/adapters/base.py lines 57-66); the
unsupported-task branch cannot arise in the typed model. -/
def resolve_url (cfg : AdapterCfg) : TaskType → Except AErr PyStr
  | .text2image =>
    if cfg.text2image_url.isEmpty then .error (.config "Missing endpoint URL".toList)
    else .ok cfg.text2image_url
  | .image2image =>
    if cfg.image2image_url.isEmpty then .error (.config "Missing endpoint URL".toList)
    else .ok cfg.image2image_url

/-- The first of the given top-level keys holding a non-blank string, stripped
(`extract_request_id`'s scan). -/
def firstNonBlankKey (raw : J) : List PyStr → Option PyStr
  | [] => none
  | k :: rest =>
    match raw.get k with
    | some (.str v) =>
      if (stripStr v).isEmpty then firstNonBlankKey raw rest else some (stripStr v)
    | _ => firstNonBlankKey raw rest

/-- `ProviderAdapter.extract_request_id` (src/adapters/base.py lines 68-74):
scan `request_id`, `id`, `task_id`; fall back to a random 12-hex id. -/
def extract_request_id (env : Env) (raw : J) : PyStr :=
  (firstNonBlankKey raw ["request_id".toList, "id".toList, "task_id".toList]).getD env.freshId

/-- The normalized generation response (identifier, images, raw body). -/
structure GenResponse where
  request_id : PyStr
  images : List PyStr
  raw : J

/-- The message of the base adapter's non-2xx `RuntimeError`, with the body
preview truncated to 500 characters. -/
def apiErrMsg (env : Env) (provider : PyStr) (status : Nat) (raw : J) : PyStr :=
  provider ++ " API error status=".toList ++ natToStr status ++
    " body=".toList ++ (env.reprJ raw).take 500

/-- `ProviderAdapter.generate` (src/adapters/base.py lines 26-55): resolve the
URL, build the payload (pure for Alibaba/GLM), build headers — raising the
missing-key configuration error — then POST once, fail on non-2xx with a
truncated body preview, and otherwise assemble the response. -/
def baseGenerate (provider : PyStr) (env : Env) (cfg : AdapterCfg)
    (buildPayload : GenReq → J) (keyErrMsg : PyStr) (req : GenReq) :
    TraceRes GenResponse :=
  match resolve_url cfg req.task_type with
  | .error e => ([], .error e)
  | .ok url =>
    let payload := buildPayload req
    if cfg.api_key.isEmpty then ([], .error (.config keyErrMsg))
    else
      let resp := env.http.post url payload
      if !resp.ok then
        ([.post url], .error (.runtime (apiErrMsg env provider resp.status resp.body)))
      else
        ([.post url],
         .ok { request_id := extract_request_id env resp.body
               images := extract_images resp.body
               raw := resp.body })

/-- `GLMAdapter.build_payload` (src/adapters/glm.py lines 19-41): flat payload
with optional `size` (if truthy), `n` (only when > 1), `seed`,
`negative_prompt` (if truthy), `image_url` for image-to-image, `extra` merged
last. -/
def glmBuildPayload (env : Env) (req : GenReq) : J :=
  let fields : List (PyStr × J) :=
    [("model".toList, .str req.model), ("prompt".toList, .str req.prompt)]
    ++ (match req.size with
        | some s => if s.isEmpty then [] else [("size".toList, J.str s)]
        | none => [])
    ++ (if req.n > 1 then [("n".toList, J.int req.n)] else [])
    ++ (match req.seed with
        | some sd => [("seed".toList, J.int sd)]
        | none => [])
    ++ (match req.negative_prompt with
        | some np => if np.isEmpty then [] else [("negative_prompt".toList, J.str np)]
        | none => [])
    ++ (match req.task_type with
        | .image2image =>
          match parse_input_image env req.input_image with
          | some info => [("image_url".toList, J.str info.2)]
          | none => []
        | .text2image => [])
  .obj ((toJObj fields).update req.extra)

/-- `GLMAdapter.generate` is the unmodified base algorithm. -/
def glmGenerate (env : Env) (cfg : AdapterCfg) (req : GenReq) : TraceRes GenResponse :=
  baseGenerate "glm".toList env cfg (glmBuildPayload env) "GLM_API_KEY is missing".toList req

/-- `AlibabaAdapter.build_payload` (src/adapters/alibaba.py lines 55-89):
messages envelope with the prompt text plus the parsed image value;
`enable_interleave` for non-image-to-image; size with `*` separator;
`max_images` vs `n`; optional seed and negative prompt; `extra` merged last. -/
def alibabaBuildPayload (env : Env) (req : GenReq) : J :=
  let content : List J :=
    [J.obj (.cons "text".toList (.str req.prompt) .nil)]
    ++ (match parse_input_image env req.input_image with
        | some info => [J.obj (.cons "image".toList (.str info.2) .nil)]
        | none => [])
  let enable_interleave : Bool := req.task_type != TaskType.image2image
  let parameters : List (PyStr × J) :=
    [("enable_interleave".toList, .bool enable_interleave),
     ("watermark".toList, .bool false)]
    ++ (match req.size with
        | some s =>
          if s.isEmpty then []
          else [("size".toList, J.str (replaceStr s ['x'] ['*']))]
        | none => [])
    ++ (if enable_interleave then [("max_images".toList, J.int req.n)]
        else [("n".toList, J.int req.n)])
    ++ (match req.seed with
        | some sd => [("seed".toList, J.int sd)]
        | none => [])
    ++ (match req.negative_prompt with
        | some np => if np.isEmpty then [] else [("negative_prompt".toList, J.str np)]
        | none => [])
  let listToJArr : List J → JArr := fun l => l.foldr .cons .nil
  let payload : List (PyStr × J) :=
    [("model".toList, .str req.model),
     ("input".toList, .obj (.cons "messages".toList
        (.arr (.cons (.obj (.cons "role".toList (.str "user".toList)
          (.cons "content".toList (.arr (listToJArr content)) .nil))) .nil)) .nil)),
     ("parameters".toList, .obj (toJObj parameters))]
  .obj ((toJObj payload).update req.extra)

/-- `AlibabaAdapter._extract_task_status` (src/adapters/alibaba.py lines
163-173): read `output.task_status`, then top-level `task_status`, upper-cased;
`UNKNOWN` when neither is a string. -/
def extract_task_status (raw : J) : PyStr :=
  match raw with
  | .obj _ =>
    match (match raw.get "output".toList with
           | some (.obj o) => o.get "task_status".toList
           | _ => none) with
    | some (.str v) => upperStr v
    | _ =>
      match raw.get "task_status".toList with
      | some (.str v) => upperStr v
      | _ => "UNKNOWN".toList
  | _ => "UNKNOWN".toList

/-- `AlibabaAdapter._extract_task_id` (src/adapters/alibaba.py lines 151-161):
`output.task_id` first, then top-level `task_id`, stripped non-blank. -/
def extract_task_id (raw : J) : Option PyStr :=
  match raw with
  | .obj _ =>
    match (match raw.get "output".toList with
           | some (.obj o) => o.get "task_id".toList
           | _ => none) with
    | some (.str v) =>
      if (stripStr v).isEmpty then
        match raw.get "task_id".toList with
        | some (.str w) => if (stripStr w).isEmpty then none else some (stripStr w)
        | _ => none
      else some (stripStr v)
    | _ =>
      match raw.get "task_id".toList with
      | some (.str w) => if (stripStr w).isEmpty then none else some (stripStr w)
      | _ => none
  | _ => none

/-- Outcome of the Alibaba poll loop. -/
inductive PollOutcome where
  | success (body : J)
  | taskFailed (body : J)
  | httpFailed (status : Nat) (body : J)
  | timedOut
  | starved

/-- `AlibabaAdapter._poll_task` (src/adapters/alibaba.py lines 129-149) over
an abstract sequence of poll responses; `t` is the elapsed time, advanced by
`interval` per retry (network time is not modelled). `starved` is the
modelling artifact for exhausting a finite response sequence before the
deadline and cannot arise for sufficiently long sequences. -/
def poll_task (interval timeout : Nat) : List HttpResp → Nat → PollOutcome
  | [], t => if timeout ≤ t then .timedOut else .starved
  | r :: rest, t =>
    if timeout ≤ t then .timedOut
    else if !r.ok then .httpFailed r.status r.body
    else
      let status := extract_task_status r.body
      if status = "SUCCEEDED".toList ∨ status = "SUCCESS".toList then .success r.body
      else if status = "FAILED".toList ∨ status = "CANCELED".toList ∨
              status = "CANCELLED".toList then .taskFailed r.body
      else poll_task interval timeout rest (t + interval)

/-- Number of poll GETs `_poll_task` issues (for the action trace). -/
def pollCount (interval timeout : Nat) : List HttpResp → Nat → Nat
  | [], _ => 0
  | r :: rest, t =>
    if timeout ≤ t then 0
    else if !r.ok then 1
    else
      let status := extract_task_status r.body
      if status = "SUCCEEDED".toList ∨ status = "SUCCESS".toList then 1
      else if status = "FAILED".toList ∨ status = "CANCELED".toList ∨
              status = "CANCELLED".toList then 1
      else 1 + pollCount interval timeout rest (t + interval)

/-- Split at the first occurrence of a multi-character pattern: the parts
before and after, or `none` when the pattern does not occur. -/
def splitFirstStr : PyStr → PyStr → Option (PyStr × PyStr)
  | [], pat => if pat.isEmpty then some ([], []) else none
  | a :: rest, pat =>
    if pat.isPrefixOf (a :: rest) then some ([], (a :: rest).drop pat.length)
    else
      match splitFirstStr rest pat with
      | some (x, y) => some (a :: x, y)
      | none => none

/-- `urlsplit(u).scheme + "://" + urlsplit(u).netloc`: scheme is the part
before `://`, netloc the part after it up to the next `/` (both empty when
`://` does not occur, as `urlsplit` then parses the whole string as a path). -/
def urlSchemeHost (u : PyStr) : PyStr :=
  match splitFirstStr u "://".toList with
  | some (scheme, rest) => scheme ++ "://".toList ++ (splitFirst rest '/').1
  | none => "://".toList

/-- `AlibabaAdapter._build_task_url` (src/adapters/alibaba.py lines 175-177). -/
def build_task_url (create_url task_id : PyStr) : PyStr :=
  urlSchemeHost create_url ++ "/api/v1/tasks/".toList ++ task_id

/-- `AlibabaAdapter._derive_async_url` (src/adapters/alibaba.py lines
179-180). -/
def derive_async_url (url : PyStr) : PyStr :=
  replaceStr url "/multimodal-generation/".toList "/image-generation/".toList

/-- Alibaba adapter configuration (src/adapters/alibaba.py lines 15-35). -/
structure AlibabaCfg extends AdapterCfg where
  async_mode : Bool
  async_url : PyStr
  poll_interval_seconds : Nat
  poll_timeout_seconds : Nat

/-- The message of the async-create non-2xx `RuntimeError`. -/
def asyncCreateErrMsg (env : Env) (status : Nat) (raw : J) : PyStr :=
  "alibaba async create error status=".toList ++ natToStr status ++
    " body=".toList ++ (env.reprJ raw).take 500

/-- `AlibabaAdapter._generate_async` (src/adapters/alibaba.py lines 91-127):
derive the create URL, build payload and headers (missing key raises here),
POST the create request, require a task id, then poll; the final response
combines both bodies and the images come from the final poll body. -/
def alibabaGenerateAsync (env : Env) (cfg : AlibabaCfg) (pollSeq : List HttpResp)
    (req : GenReq) : TraceRes GenResponse :=
  let createUrlE : Except AErr PyStr :=
    if cfg.async_url.isEmpty then
      match resolve_url cfg.toAdapterCfg req.task_type with
      | .error e => .error e
      | .ok u => .ok (derive_async_url u)
    else .ok cfg.async_url
  match createUrlE with
  | .error e => ([], .error e)
  | .ok create_url =>
    let payload := alibabaBuildPayload env req
    if cfg.api_key.isEmpty then ([], .error (.config "ALIBABA_API_KEY is missing".toList))
    else
      let createResp := env.http.post create_url payload
      if !createResp.ok then
        ([.post create_url],
         .error (.runtime (asyncCreateErrMsg env createResp.status createResp.body)))
      else
        match extract_task_id createResp.body with
        | none =>
          ([.post create_url],
           .error (.runtime ("alibaba async create missing task_id: ".toList
             ++ env.reprJ createResp.body)))
        | some task_id =>
          let task_url := build_task_url create_url task_id
          let gets := List.replicate
            (pollCount cfg.poll_interval_seconds cfg.poll_timeout_seconds pollSeq 0)
            (NetCall.get task_url)
          let trace := NetCall.post create_url :: gets
          match poll_task cfg.poll_interval_seconds cfg.poll_timeout_seconds pollSeq 0 with
          | .success final =>
            (trace, .ok { request_id := task_id
                          images := extract_images final
                          raw := .obj (.cons "create_task".toList createResp.body
                            (.cons "task_result".toList final .nil)) })
          | .taskFailed body =>
            (trace, .error (.runtime ("alibaba async task failed: ".toList ++ env.reprJ body)))
          | .httpFailed status body =>
            (trace, .error (.runtime ("alibaba async poll error status=".toList
              ++ natToStr status ++ " body=".toList ++ (env.reprJ body).take 500)))
          | .timedOut =>
            (trace, .error (.timeout ("alibaba async task poll timeout after ".toList
              ++ natToStr cfg.poll_timeout_seconds ++ "s".toList)))
          | .starved =>
            (trace, .error (.timeout "poll sequence exhausted (modelling artifact)".toList))

/-- `AlibabaAdapter.generate` (src/adapters/alibaba.py lines 45-53): async
mode goes straight to the async path; otherwise run the base algorithm and
fall back to async only when the raised `RuntimeError`'s message contains the
sync-unsupported marker text. -/
def alibabaGenerate (env : Env) (cfg : AlibabaCfg) (pollSeq : List HttpResp)
    (req : GenReq) : TraceRes GenResponse :=
  if cfg.async_mode then alibabaGenerateAsync env cfg pollSeq req
  else
    match baseGenerate "alibaba".toList env cfg.toAdapterCfg (alibabaBuildPayload env)
        "ALIBABA_API_KEY is missing".toList req with
    | (tr, .error (.runtime msg)) =>
      if containsStr msg "does not support synchronous calls".toList then
        let next := alibabaGenerateAsync env cfg pollSeq req
        (tr ++ next.1, next.2)
      else (tr, .error (.runtime msg))
    | other => other

/-- `GoogleAdapter._inline_from_data_uri` (src/adapters/google.py lines
123-130): split at the first comma; parse the mime from the header when it has
both `:` and `;`, else default `image/png`. -/
def inline_from_data_uri (value : PyStr) : Except AErr (PyStr × PyStr) :=
  if !containsStr value [','] then
    .error (.config "Invalid data URI for input_image".toList)
  else
    let p := splitFirst value ','
    let header := p.1
    let data := p.2
    let mime :=
      if containsStr header [':'] && containsStr header [';'] then
        (splitFirst (splitFirst header ':').2 ';').1
      else "image/png".toList
    .ok (mime, data)

/-- `resp.headers.get("content-type", "image/png").split(";")[0]`. -/
def contentTypeMime (ct : Option PyStr) : PyStr :=
  let s := ct.getD "image/png".toList
  if containsStr s [';'] then (splitFirst s ';').1 else s

/-- `GoogleAdapter._to_inline_data` (src/adapters/google.py lines 105-121):
data URIs are split locally; URL inputs are fetched synchronously (a GET
before any key check), failing with `raise_for_status` on non-2xx; raw base64
is passed through with default mime `image/png`. -/
def google_to_inline_data (env : Env) (input : Option PyStr) :
    TraceRes (PyStr × PyStr) :=
  match parse_input_image env input with
  | none => ([], .error (.config "input_image is required for image_to_image".toList))
  | some info =>
    if info.1 = "data_uri".toList then ([], inline_from_data_uri info.2)
    else if info.1 = "url".toList then
      let resp := env.http.get info.2
      ([.get info.2],
       if !resp.ok then .error (.httpStatus resp.status)
       else .ok (contentTypeMime resp.contentType, b64encode resp.content))
    else ([], .ok ("image/png".toList, info.2))

/-- `GoogleAdapter.build_payload` (src/adapters/google.py lines 51-67):
`contents` with the prompt part (plus inline data for image-to-image),
`generationConfig.responseModalities = ["IMAGE"]`, the aspect ratio only when
supported, and `extra` merged last. -/
def googleBuildPayload (env : Env) (req : GenReq) : TraceRes J :=
  let partsE : TraceRes (List J) :=
    match req.task_type with
    | .image2image =>
      match google_to_inline_data env req.input_image with
      | (tr, .error e) => (tr, .error e)
      | (tr, .ok inline) =>
        (tr, .ok [J.obj (.cons "text".toList (.str req.prompt) .nil),
                  J.obj (.cons "inline_data".toList
                    (.obj (.cons "mime_type".toList (.str inline.1)
                      (.cons "data".toList (.str inline.2) .nil))) .nil)])
    | .text2image => ([], .ok [J.obj (.cons "text".toList (.str req.prompt) .nil)])
  match partsE with
  | (tr, .error e) => (tr, .error e)
  | (tr, .ok parts) =>
    let listToJArr : List J → JArr := fun l => l.foldr .cons .nil
    let genConfig : JObj :=
      let base : JObj := .cons "responseModalities".toList
        (.arr (.cons (.str "IMAGE".toList) .nil)) .nil
      match size_to_aspect req.size with
      | some ratio =>
        base.setKey "imageConfig".toList
          (.obj (.cons "aspectRatio".toList (.str ratio) .nil))
      | none => base
    let payload : List (PyStr × J) :=
      [("contents".toList, .arr (.cons (.obj (.cons "parts".toList
          (.arr (listToJArr parts)) .nil)) .nil)),
       ("generationConfig".toList, .obj genConfig)]
    (tr, .ok (.obj ((toJObj payload).update req.extra)))

mutual
/-- `GoogleAdapter._walk_inline_data` (src/adapters/google.py lines 89-103):
wherever a dict holds `inlineData`/`inline_data` dicts, synthesize
`data:<mime>;base64,<data>` (default mime `image/png`, `or`-style falsy
fallback), then recurse into every value. -/
def googleInlineJ (env : Env) : J → List PyStr
  | .obj o => googleInlineKeys env o ++ googleInlineObj env o
  | .arr a => googleInlineArr env a
  | _ => []

/-- The per-node synthesis: check the two inline keys on this dict. -/
def googleInlineKeys (env : Env) (node : JObj) : List PyStr :=
  (match node.get "inlineData".toList with
   | some (.obj inline) => googleInlinePiece env inline
   | _ => []) ++
  (match node.get "inline_data".toList with
   | some (.obj inline) => googleInlinePiece env inline
   | _ => [])

/-- Build the data URI from one inline dict, when its `data` is a non-empty
string; the mime is the first truthy of `mimeType`/`mime_type`, else
`image/png` (non-string mimes render via `str()`). -/
def googleInlinePiece (env : Env) (inline : JObj) : List PyStr :=
  match inline.get "data".toList with
  | some (.str data) =>
    if data.isEmpty then []
    else
      let mimeJ : Option J :=
        match inline.get "mimeType".toList with
        | some m => if m.falsy then
            (match inline.get "mime_type".toList with
             | some m2 => if m2.falsy then none else some m2
             | none => none)
          else some m
        | none =>
          match inline.get "mime_type".toList with
          | some m2 => if m2.falsy then none else some m2
          | none => none
      let mimeStr : PyStr :=
        match mimeJ with
        | some (.str s) => s
        | some other => env.reprJ other
        | none => "image/png".toList
      ["data:".toList ++ mimeStr ++ ";base64,".toList ++ data]
  | _ => []

/-- Recurse into every value of the dict. -/
def googleInlineObj (env : Env) : JObj → List PyStr
  | .nil => []
  | .cons _ v rest => googleInlineJ env v ++ googleInlineObj env rest

/-- Recurse into every element of the array. -/
def googleInlineArr (env : Env) : JArr → List PyStr
  | .nil => []
  | .cons x rest => googleInlineJ env x ++ googleInlineArr env rest
end

/-- `GoogleAdapter.extract_images` (src/adapters/google.py lines 77-87): the
generic walk's (already deduped) results, then the inline-data walk, deduped
again preserving order. -/
def googleExtractImages (env : Env) (raw : J) : List PyStr :=
  dedup (extract_images raw ++ googleInlineJ env raw)

/-- `GoogleAdapter.extract_request_id` (src/adapters/google.py lines 69-75). -/
def googleExtractRequestId (env : Env) (raw : J) : PyStr :=
  (firstNonBlankKey raw
    ["request_id".toList, "id".toList, "task_id".toList, "responseId".toList]).getD
    env.freshId

/-- `GoogleAdapter.generate` (src/adapters/google.py lines 24-49): resolve the
URL, substitute `{model}`, build the payload — which for a URL input image
issues a GET before the key check — then check the key, POST once, and
assemble the response. -/
def googleGenerate (env : Env) (cfg : AdapterCfg) (req : GenReq) :
    TraceRes GenResponse :=
  match resolve_url cfg req.task_type with
  | .error e => ([], .error e)
  | .ok url0 =>
    let url := if containsStr url0 "{model}".toList then
        replaceStr url0 "{model}".toList req.model
      else url0
    match googleBuildPayload env req with
    | (tr, .error e) => (tr, .error e)
    | (tr, .ok payload) =>
      if cfg.api_key.isEmpty then (tr, .error (.config "GOOGLE_API_KEY is missing".toList))
      else
        let resp := env.http.post url payload
        if !resp.ok then
          (tr ++ [.post url],
           .error (.runtime (apiErrMsg env "google".toList resp.status resp.body)))
        else
          (tr ++ [.post url],
           .ok { request_id := googleExtractRequestId env resp.body
                 images := googleExtractImages env resp.body
                 raw := resp.body })

/-- Python's `round()` to an integer: nearest, ties to even (banker's
rounding), on the exact rational value. -/
def pyRound (q : ℚ) : ℤ :=
  if q - ⌊q⌋ < 1/2 then ⌊q⌋
  else if 1/2 < q - ⌊q⌋ then ⌊q⌋ + 1
  else if Even ⌊q⌋ then ⌊q⌋ else ⌊q⌋ + 1

/-- `_clamp_size` (src/core/services/generation.py lines 192-196): clamp each
dimension independently into [512, 2048]. -/
def clamp_size (w h : ℤ) : ℤ × ℤ := (max 512 (min 2048 w), max 512 (min 2048 h))

/-- `_fit_size_within_bounds` (src/core/services/generation.py lines 172-189),
with the float arithmetic carried out exactly over `ℚ`: non-positive input →
(512, 512); downscale by `min(2048/w, 2048/h)` when either side exceeds 2048;
then upscale by `max(512/w, 512/h)` when either side is below 512; round and
clamp. -/
def fit_size_within_bounds (width height : Nat) : ℤ × ℤ :=
  if width = 0 ∨ height = 0 then (512, 512)
  else
    let w0 : ℚ := width
    let h0 : ℚ := height
    let p1 : ℚ × ℚ :=
      if 2048 < w0 ∨ 2048 < h0 then
        let scale := min (2048 / w0) (2048 / h0)
        (w0 * scale, h0 * scale)
      else (w0, h0)
    let p2 : ℚ × ℚ :=
      if p1.1 < 512 ∨ p1.2 < 512 then
        let scale := max (512 / p1.1) (512 / p1.2)
        (p1.1 * scale, p1.2 * scale)
      else p1
    clamp_size (pyRound p2.1) (pyRound p2.2)

/-- The C3 claim's fit computation, stated as the claim words it: downscale
uniformly so the larger dimension is exactly 2048 when either side exceeds
2048; then upscale uniformly so the smaller dimension is exactly 512 when
either side is below 512; round to nearest and clamp each side into
[512, 2048]. -/
def claimFit (width height : Nat) : ℤ × ℤ :=
  let w0 : ℚ := width
  let h0 : ℚ := height
  let p1 : ℚ × ℚ :=
    if 2048 < max w0 h0 then
      (w0 * (2048 / max w0 h0), h0 * (2048 / max w0 h0))
    else (w0, h0)
  let p2 : ℚ × ℚ :=
    if min p1.1 p1.2 < 512 then
      (p1.1 * (512 / min p1.1 p1.2), p1.2 * (512 / min p1.1 p1.2))
    else p1
  clamp_size (pyRound p2.1) (pyRound p2.2)

/-- `_resolve_target_size` (src/core/services/generation.py lines 162-169):
fit to bounds when no size was requested or it equals the source dimensions;
otherwise clamp the requested size with no aspect-preserving scaling. -/
def resolve_target_size (sw sh : Nat) : Option (Nat × Nat) → ℤ × ℤ
  | none => fit_size_within_bounds sw sh
  | some r =>
    if r = (sw, sh) then fit_size_within_bounds sw sh
    else clamp_size r.1 r.2

/-- `_parse_size` (src/core/services/generation.py lines 199-212): strip and
lowercase, require an `x`, digit parts, and positive values. -/
def parse_size (value : Option PyStr) : Option (Nat × Nat) :=
  match value with
  | none => none
  | some s =>
    if s.isEmpty then none
    else
      let text := lowerStr (stripStr s)
      if !containsStr text ['x'] then none
      else
        let p := splitFirst text 'x'
        if !(isDigits p.1 && isDigits p.2) then none
        else
          let width := digitsToNat p.1
          let height := digitsToNat p.2
          if width = 0 ∨ height = 0 then none
          else some (width, height)

/-- The auto-crop preprocessor's collaborators: the two environment flags, the
source-image loader (its decoded pixel dimensions, `None` on any decode
failure), and the fresh temp path `mkstemp` would return. -/
structure PrepEnv where
  autocrop_enabled : Bool
  persist_enabled : Bool
  loadImage : PyStr → Option (Nat × Nat)
  tempPath : PyStr

/-- `prepare_request_for_execution` (src/core/services/generation.py lines
99-159): pass through unless an Alibaba image-to-image request with an input
image and the auto-crop flag enabled; load the source (failure → pass
through); compute the target; always normalize `size` to the target text on
the surviving path; with the source already at target size, return with no
temp file unless persistence is enabled (then copy to a temp PNG); otherwise
center-crop/resize into a temp PNG. The returned list is the caller's cleanup
obligation. -/
def prepare_request_for_execution (penv : PrepEnv) (req : GenReq) :
    GenReq × List PyStr :=
  if req.task_type ≠ TaskType.image2image ∨ req.provider ≠ Provider.alibaba then (req, [])
  else if !optStrTruthy req.input_image then (req, [])
  else if !penv.autocrop_enabled then (req, [])
  else
    match penv.loadImage ((req.input_image).getD []) with
    | none => (req, [])
    | some src =>
      let requested := parse_size req.size
      let target := resolve_target_size src.1 src.2 requested
      let targetText := natToStr target.1.toNat ++ 'x' :: natToStr target.2.toNat
      let prepared := { req with size := some targetText }
      if (src.1 : ℤ) = target.1 ∧ (src.2 : ℤ) = target.2 then
        if !penv.persist_enabled then (prepared, [])
        else ({ prepared with input_image := some penv.tempPath }, [penv.tempPath])
      else ({ prepared with input_image := some penv.tempPath }, [penv.tempPath])

/-- Big-endian value of a byte list (`struct.unpack(">I"/">H")`). -/
def beVal (l : List Nat) : Nat := l.foldl (fun a b => 256 * a + b) 0

/-- Little-endian 16-bit value (`struct.unpack("<H")`). -/
def le16Val (l : List Nat) : Nat :=
  match l with
  | [a, b] => a + 256 * b
  | _ => 0

/-- Little-endian signed 32-bit value (`int.from_bytes(..., "little",
signed=True)`). -/
def le32Signed (l : List Nat) : Int :=
  match l with
  | [a, b, c, d] =>
    let u := a + 256 * b + 65536 * c + 16777216 * d
    if u < 2147483648 then (u : Int) else (u : Int) - 4294967296
  | _ => 0

/-- The PNG signature bytes. -/
def pngSig : List Nat := [137, 80, 78, 71, 13, 10, 26, 10]

/-- `_png_dimensions` (src/core/io_utils.py lines 89-95): at least 24 bytes,
the 8-byte signature, then big-endian width/height at offsets 16 and 20. -/
def png_dimensions (data : List Nat) : Option (Nat × Nat) :=
  if data.length < 24 then none
  else if data.take 8 ≠ pngSig then none
  else some (beVal ((data.drop 16).take 4), beVal ((data.drop 20).take 4))

/-- The Start-Of-Frame marker codes `_jpeg_dimensions` accepts. -/
def sofMarkers : List Nat :=
  [0xC0, 0xC1, 0xC2, 0xC3, 0xC5, 0xC6, 0xC7, 0xC9, 0xCA, 0xCB, 0xCD, 0xCE, 0xCF]

/-- One step of the JPEG marker scan. `rem` is the unscanned suffix
(`data[i:]`); the loop guard `i + 9 < len(data)` is `rem.length ≥ 10`. -/
inductive ScanStep where
  | done (result : Option (Nat × Nat))
  | next (rest : List Nat)
deriving DecidableEq

/-- One iteration of the `while` loop of `_jpeg_dimensions` (src/core/
io_utils.py lines 117-141): skip non-`FF` bytes; skip `FF` runs; `D8`/`D9`
continue, `DA` (Start-Of-Scan) fails; read the 2-byte segment length,
rejecting lengths below 2 or past the buffer; on a Start-Of-Frame marker read
height then width 3 bytes into the segment; otherwise skip the segment. -/
def jpegScanStep (rem : List Nat) : ScanStep :=
  if rem.length < 10 then .done none
  else
    match rem with
    | [] => .done none
    | b :: rest =>
      if b ≠ 255 then .next rest
      else
        match rem.dropWhile (fun x => x = 255) with
        | [] => .done none
        | m :: rest1 =>
          if m = 0xD8 ∨ m = 0xD9 then .next rest1
          else if m = 0xDA then .done none
          else if rest1.length < 2 then .done none
          else if beVal (rest1.take 2) < 2 ∨ rest1.length < beVal (rest1.take 2) then .done none
          else if sofMarkers.contains m then
            if rest1.length < 7 then .done none
            else .done (some (beVal ((rest1.drop 5).take 2), beVal ((rest1.drop 3).take 2)))
          else .next (rest1.drop (beVal (rest1.take 2)))

/-- The full marker-scan loop of `_jpeg_dimensions`, iterating
`jpegScanStep`. -/
def jpegScanGo (rem : List Nat) : Option (Nat × Nat) :=
  match hs : jpegScanStep rem with
  | .done r => r
  | .next rest => jpegScanGo rest
termination_by rem.length
decreasing_by
  unfold jpegScanStep at hs
  split at hs
  · exact absurd hs (by simp)
  · split at hs
    · exact absurd hs (by simp)
    · rename_i b tail _
      split at hs
      · cases hs
        simp
      · rename_i hb
        have hdw : (b :: tail).dropWhile (fun x => x = 255) = tail.dropWhile (fun x => x = 255) := by
          simp at hb
          simp [List.dropWhile_cons, hb]
        have hdwlen : (tail.dropWhile (fun x => x = 255)).length ≤ tail.length :=
          (List.dropWhile_sublist (fun x => x = 255) :
            List.Sublist (List.dropWhile (fun x => x = 255) tail) tail).length_le
        split at hs
        · exact absurd hs (by simp)
        · rename_i m rest1 hm
          rw [hdw] at hm
          have hr1 : rest1.length + 1 ≤ tail.length := by
            have := hm ▸ hdwlen
            simpa using this
          split at hs
          · cases hs
            simp only [List.length_cons]
            omega
          · split at hs
            · exact absurd hs (by simp)
            · split at hs
              · exact absurd hs (by simp)
              · split at hs
                · exact absurd hs (by simp)
                · split at hs
                  · split at hs <;> exact absurd hs (by simp)
                  · cases hs
                    have hd : (rest1.drop (beVal (rest1.take 2))).length ≤ rest1.length := by
                      simp
                    simp only [List.length_cons]
                    omega

/-- `_jpeg_dimensions` (src/core/io_utils.py lines 98-142): require the SOI
marker and at least 4 bytes, then scan from offset 2. -/
def jpeg_dimensions (data : List Nat) : Option (Nat × Nat) :=
  if data.length < 4 then none
  else if data.take 2 ≠ [255, 216] then none
  else jpegScanGo (data.drop 2)

/-- `_gif_dimensions` (src/core/io_utils.py lines 145-151): `GIF87a`/`GIF89a`
signature, then little-endian 16-bit width and height. -/
def gif_dimensions (data : List Nat) : Option (Nat × Nat) :=
  if data.length < 10 then none
  else if data.take 6 ≠ "GIF87a".toList.map Char.toNat ∧
          data.take 6 ≠ "GIF89a".toList.map Char.toNat then none
  else some (le16Val ((data.drop 6).take 2), le16Val ((data.drop 8).take 2))

/-- `_bmp_dimensions` (src/core/io_utils.py lines 154-161): `BM` signature,
at least 26 bytes, signed little-endian 32-bit width/height at offsets 18/22;
report only positive width and non-zero height, with the height's absolute
value. -/
def bmp_dimensions (data : List Nat) : Option (Nat × Nat) :=
  if data.length < 26 then none
  else if data.take 2 ≠ [66, 77] then none
  else
    let w := le32Signed ((data.drop 18).take 4)
    let h := le32Signed ((data.drop 22).take 4)
    if w ≤ 0 ∨ h = 0 then none
    else some (w.toNat, h.natAbs)

/-- `_extract_dimensions` (src/core/io_utils.py lines 81-86): the first parser
returning a match, in PNG, JPEG, GIF, BMP order. -/
def extract_dimensions (data : List Nat) : Option (Nat × Nat) :=
  match png_dimensions data with
  | some r => some r
  | none =>
    match jpeg_dimensions data with
    | some r => some r
    | none =>
      match gif_dimensions data with
      | some r => some r
      | none => bmp_dimensions data

/-- Big-endian 4-byte encoding of a value below 2^32. -/
def be32enc (n : Nat) : List Nat :=
  [n / 16777216 % 256, n / 65536 % 256, n / 256 % 256, n % 256]

/-- Big-endian 2-byte encoding of a value below 2^16. -/
def be16enc (n : Nat) : List Nat := [n / 256 % 256, n % 256]

/-- Little-endian 2-byte encoding of a value below 2^16. -/
def le16enc (n : Nat) : List Nat := [n % 256, n / 256 % 256]

/-- Little-endian 4-byte encoding of a value below 2^32. -/
def le32enc (n : Nat) : List Nat :=
  [n % 256, n / 256 % 256, n / 65536 % 256, n / 16777216 % 256]

/-- A well-formed PNG prefix: signature, 8 header bytes (chunk length and
`IHDR` tag), then the encoded dimensions. -/
def pngBytes (w h : Nat) (hdr tail : List Nat) : List Nat :=
  (pngSig ++ hdr) ++ (be32enc w ++ (be32enc h ++ tail))

/-- A JPEG marker segment that carries a length field. -/
def jpegSeg (m : Nat) (payload : List Nat) : List Nat :=
  255 :: m :: be16enc (payload.length + 2) ++ payload

/-- A well-formed JPEG: SOI, any segments, then a SOF segment whose payload is
precision byte, height, width, and any further component data. -/
def jpegBytes (segs : List (Nat × List Nat)) (m prec h w : Nat)
    (extra tail : List Nat) : List Nat :=
  255 :: 216 :: (segs.map fun s => jpegSeg s.1 s.2).flatten
    ++ jpegSeg m (prec :: be16enc h ++ be16enc w ++ extra) ++ tail

/-- A marker usable for a skipped (non-SOF) JPEG segment. -/
def validMidMarker (m : Nat) : Prop :=
  m < 256 ∧ m ≠ 255 ∧ m ≠ 0xD8 ∧ m ≠ 0xD9 ∧ m ≠ 0xDA ∧ m ∉ sofMarkers

/-- A well-formed GIF prefix (`GIF89a`). -/
def gifBytes (w h : Nat) (tail : List Nat) : List Nat :=
  "GIF89a".toList.map Char.toNat ++ (le16enc w ++ (le16enc h ++ tail))

/-- A well-formed bottom-up BMP prefix: `BM`, 16 header bytes, then the
little-endian dimensions. -/
def bmpBytes (w h : Nat) (hdr tail : List Nat) : List Nat :=
  ([66, 77] ++ hdr) ++ (le32enc w ++ (le32enc h ++ tail))

/-- A successful poll response used to instantiate the C4 theorem. -/
def c4Resp : HttpResp :=
  { ok := true
    status := 200
    body := J.obj (.cons "output".toList
      (.obj (.cons "task_status".toList (.str "SUCCEEDED".toList) .nil)) .nil)
    content := []
    contentType := none }

def penv5 : PrepEnv :=
  { autocrop_enabled := true
    persist_enabled := false
    loadImage := fun _ => some (1024, 1024)
    tempPath := "/tmp/igt_autocrop_x.png".toList }

def req5 : GenReq :=
  { provider := .alibaba
    model := "wan2.6-i2i".toList
    task_type := .image2image
    prompt := "p".toList
    input_image := some "cat.png".toList }

/-- The `generationConfig.imageConfig` entry of a built payload, when the
build succeeded. -/
def payloadAspect (r : TraceRes J) : Option J :=
  match r with
  | (_, .ok p) =>
    match p.get "generationConfig".toList with
    | some g => g.get "imageConfig".toList
    | _ => none
  | _ => none

def dummyHttp : Http :=
  { post := fun _ _ => { ok := true, status := 200, body := .null, content := [], contentType := none }
    get := fun _ => { ok := true, status := 200, body := .null, content := [1], contentType := some "image/png".toList } }

def env2 : Env :=
  { http := dummyHttp
    fs := fun _ => none
    guessMime := fun _ => none
    reprJ := fun _ => []
    freshId := "abc123def456".toList }

def gcfg2 : AdapterCfg :=
  { api_key := []
    text2image_url := "https://gl/t".toList
    image2image_url := "https://gl/i".toList }

def req2 : GenReq :=
  { provider := .google
    model := "gemini".toList
    task_type := .image2image
    prompt := "p".toList
    input_image := some "http://img.example/x.png".toList }

/-- Empty-key Alibaba configuration (sync mode) for the C2 witness. -/
def acfg2 : AlibabaCfg :=
  { api_key := []
    text2image_url := "https://a/t".toList
    image2image_url := "https://a/i".toList
    async_mode := false
    async_url := []
    poll_interval_seconds := 1
    poll_timeout_seconds := 2 }

/-- Empty-key GLM configuration for the C2 witness. -/
def ccfg2 : AdapterCfg :=
  { api_key := []
    text2image_url := "https://c/t".toList
    image2image_url := "https://c/i".toList }

/-- A filesystem in which a regular file exists at the (unusual but legal)
relative path `data:image/x`. -/
def env9 : Env :=
  { http := dummyHttp
    fs := fun s => if s = "data:image/x".toList then some [104, 105] else none
    guessMime := fun _ => none
    reprJ := fun _ => []
    freshId := "abc123def456".toList }

/-- A filesystem holding `photo.png` with bytes 1,2,3 for the C9 witness. -/
def env9b : Env :=
  { http := dummyHttp
    fs := fun s => if s = "photo.png".toList then some [1, 2, 3] else none
    guessMime := fun s => if s = "photo.png".toList then some "image/png".toList else none
    reprJ := fun _ => []
    freshId := "abc123def456".toList }

theorem dedupAux_sublist (l : List PyStr) : ∀ seen, List.Sublist (dedupAux seen l) l := by
  induction l with
  | nil => intro seen; simp [dedupAux]
  | cons x xs ih =>
    intro seen
    by_cases h : x ∈ seen
    · simp only [dedupAux, if_pos h]
      exact (ih seen).trans (List.sublist_cons_self x xs)
    · simp only [dedupAux, if_neg h]
      exact (ih (x :: seen)).cons₂ x

theorem mem_dedupAux (l : List PyStr) :
    ∀ (seen : List PyStr) (a : PyStr), a ∈ dedupAux seen l ↔ a ∈ l ∧ a ∉ seen := by
  induction l with
  | nil => intro seen a; simp [dedupAux]
  | cons x xs ih =>
    intro seen a
    by_cases h : x ∈ seen <;> by_cases hax : a = x <;>
      simp [dedupAux, h, hax, ih]

theorem dedupAux_nodup (l : List PyStr) : ∀ seen, (dedupAux seen l).Nodup := by
  induction l with
  | nil => intro seen; simp [dedupAux]
  | cons x xs ih =>
    intro seen
    by_cases h : x ∈ seen
    · simpa [dedupAux, h] using ih seen
    · simp only [dedupAux, if_neg h, List.nodup_cons]
      refine ⟨fun hc => ?_, ih (x :: seen)⟩
      exact ((mem_dedupAux xs (x :: seen) x).mp hc).2 (List.mem_cons_self x seen)

theorem dedup_eq_eraseDups (l : List PyStr) : dedup l = l.eraseDups := by
  suffices h : ∀ (l acc : List PyStr), List.eraseDups.loop l acc = acc.reverse ++ dedupAux acc l by
    simpa using (h l []).symm
  intro l
  induction l with
  | nil => intro acc; simp [List.eraseDups.loop, dedupAux]
  | cons x xs ih =>
    intro acc
    by_cases h : x ∈ acc
    · simp [List.eraseDups.loop, dedupAux, h, ih]
    · simp [List.eraseDups.loop, dedupAux, h, ih (x :: acc)]

mutual
theorem walkJ_eq_filter (j : J) :
    walk_and_collect j =
      ((jStringPairs j).filter fun p => looks_like_image p.1 p.2).map Prod.snd := by
  match j with
  | .obj o => simpa [walk_and_collect, jStringPairs] using walkObj_eq_filter o
  | .arr a => simpa [walk_and_collect, jStringPairs] using walkArr_eq_filter a
  | .str s => simp [walk_and_collect, jStringPairs]
  | .int n => simp [walk_and_collect, jStringPairs]
  | .bool b => simp [walk_and_collect, jStringPairs]
  | .null => simp [walk_and_collect, jStringPairs]

theorem walkObj_eq_filter (o : JObj) :
    walkObjCollect o =
      ((jObjStringPairs o).filter fun p => looks_like_image p.1 p.2).map Prod.snd := by
  match o with
  | .nil => simp [walkObjCollect, jObjStringPairs]
  | .cons k v rest =>
    have ihRest := walkObj_eq_filter rest
    have ihV := walkJ_eq_filter v
    match v with
    | .str s =>
      by_cases h : looks_like_image k s <;>
        simp [walkObjCollect, jObjStringPairs, List.filter_append, h, ihRest]
    | .int n => simp [walkObjCollect, jObjStringPairs, List.filter_append, ihRest, ihV]
    | .bool b => simp [walkObjCollect, jObjStringPairs, List.filter_append, ihRest, ihV]
    | .null => simp [walkObjCollect, jObjStringPairs, List.filter_append, ihRest, ihV]
    | .arr a => simp [walkObjCollect, jObjStringPairs, List.filter_append, ihRest, ihV]
    | .obj o2 => simp [walkObjCollect, jObjStringPairs, List.filter_append, ihRest, ihV]

theorem walkArr_eq_filter (a : JArr) :
    walkArrCollect a =
      ((jArrStringPairs a).filter fun p => looks_like_image p.1 p.2).map Prod.snd := by
  match a with
  | .nil => simp [walkArrCollect, jArrStringPairs]
  | .cons x rest =>
    have ihX := walkJ_eq_filter x
    have ihRest := walkArr_eq_filter rest
    simp [walkArrCollect, jArrStringPairs, List.filter_append, ihX, ihRest]
end

/-- C1 counterexample: on `{"image_url": "HTTP://A"}` the walk collects the
value, but the claim's classifier (value must start with `http://` or
`https://`, case-sensitively) classifies nothing, so the claim's "collects
exactly when" equation fails at this input. -/
theorem C1_counterexample : extract_images c1Json ≠ dedup (claimValues c1Json) := by decide

/-- C1 (amended): for every parsed JSON response, `extract_images` returns
exactly the string-valued `(key, value)` pairs of the traversal accepted by
the source classifier `_looks_like_image` (which lowercases the value before
the prefix tests and applies the three rules in sequence), de-duplicated
preserving first-seen order; `dedup` is a duplicate-free, membership- and
order-preserving sublist, and agrees with `List.eraseDups`. -/
theorem C1_extract_images_classification (j : J) (l : List PyStr) :
    extract_images j = dedup (classifiedValues j) ∧
    List.Sublist (dedup l) l ∧ (dedup l).Nodup ∧
    (∀ s, s ∈ dedup l ↔ s ∈ l) ∧ dedup l = l.eraseDups := by
  refine ⟨?_, dedupAux_sublist l [], dedupAux_nodup l [], ?_, dedup_eq_eraseDups l⟩
  · unfold extract_images
    by_cases hf : j.falsy
    · rw [if_pos hf]
      rcases j with s|n|b|_|(_|⟨x,r⟩)|(_|⟨k,v,r⟩) <;>
        simp_all [J.falsy, classifiedValues, jStringPairs, dedup, dedupAux]
    · rw [if_neg hf, classifiedValues, walkJ_eq_filter j]
  · intro s
    simpa using mem_dedupAux l [] s

/-- C6 counterexample: a whitespace-only `input_image` (blank in the claim's
sense: its strip is empty) passes construction, because `ensure_task_fields`
only tests Python truthiness (`not self.input_image`), which accepts `" "`. -/
theorem C6_counterexample :
    requestValid c6Req = true ∧ c6Req.task_type = TaskType.image2image ∧
    (stripStr ((c6Req.input_image).getD [])).isEmpty = true := by decide

/-- C6 (amended): for every attempted construction of a `GenerationRequest`
with `task_type = image_to_image`, construction fails whenever `input_image`
is absent or the empty string (Python-falsy); unlike the other validated
string fields, a whitespace-only `input_image` is accepted. -/
theorem C6_input_image_required (r : GenReq) (h : r.task_type = TaskType.image2image)
    (h2 : r.input_image = none ∨ r.input_image = some []) :
    requestValid r = false := by
  rcases h2 with h2 | h2 <;> simp [requestValid, h, h2, optStrTruthy]

/-- C6 witness: the amended theorem applied to a concrete absent-input
request. -/
theorem C6_input_image_required_witness :
    requestValid { provider := .alibaba, model := "m".toList,
                   task_type := .image2image, prompt := "p".toList } = false :=
  C6_input_image_required _ rfl (Or.inl rfl)

theorem jpegScanStep_next_lt {rem rest : List Nat}
    (h : jpegScanStep rem = .next rest) : rest.length < rem.length := by
  unfold jpegScanStep at h
  split at h
  · exact absurd h (by simp)
  · split at h
    · exact absurd h (by simp)
    · rename_i b tail _
      split at h
      · cases h
        simp
      · rename_i hb
        have hdw : (b :: tail).dropWhile (fun x => x = 255) = tail.dropWhile (fun x => x = 255) := by
          simp at hb
          simp [List.dropWhile_cons, hb]
        have hdwlen : (tail.dropWhile (fun x => x = 255)).length ≤ tail.length :=
          (List.dropWhile_sublist (fun x => x = 255) :
            List.Sublist (List.dropWhile (fun x => x = 255) tail) tail).length_le
        split at h
        · exact absurd h (by simp)
        · rename_i m rest1 hm
          rw [hdw] at hm
          have hr1 : rest1.length + 1 ≤ tail.length := by
            have := hm ▸ hdwlen
            simpa using this
          split at h
          · cases h
            simp only [List.length_cons]
            omega
          · split at h
            · exact absurd h (by simp)
            · split at h
              · exact absurd h (by simp)
              · split at h
                · exact absurd h (by simp)
                · split at h
                  · split at h <;> exact absurd h (by simp)
                  · cases h
                    have hd : (rest1.drop (beVal (rest1.take 2))).length ≤ rest1.length := by
                      simp
                    simp only [List.length_cons]
                    omega

/-- C4: the poll loop returns the poll body exactly on SUCCEEDED/SUCCESS,
raises a task failure carrying the body on FAILED/CANCELED/CANCELLED, retries
after one interval on any other status, times out with a distinct error kind
once the deadline has passed, and reads the status case-insensitively from
`output.task_status` (upper-casing it). -/
theorem C4_poll_task_protocol (interval timeout t : Nat) (r : HttpResp)
    (rest : List HttpResp) :
    (∀ polls : List HttpResp, timeout ≤ t →
      poll_task interval timeout polls t = .timedOut) ∧
    (t < timeout → r.ok = true →
      ((extract_task_status r.body = "SUCCEEDED".toList ∨
        extract_task_status r.body = "SUCCESS".toList) →
        poll_task interval timeout (r :: rest) t = .success r.body) ∧
      ((extract_task_status r.body = "FAILED".toList ∨
        extract_task_status r.body = "CANCELED".toList ∨
        extract_task_status r.body = "CANCELLED".toList) →
        poll_task interval timeout (r :: rest) t = .taskFailed r.body) ∧
      (extract_task_status r.body ∉
        ["SUCCEEDED".toList, "SUCCESS".toList, "FAILED".toList,
         "CANCELED".toList, "CANCELLED".toList] →
        poll_task interval timeout (r :: rest) t =
          poll_task interval timeout rest (t + interval))) ∧
    (∀ (s : PyStr) (o : JObj),
      extract_task_status (J.obj (.cons "output".toList
        (.obj (.cons "task_status".toList (.str s) .nil)) o)) = upperStr s) ∧
    (∀ body : J, PollOutcome.timedOut ≠ PollOutcome.taskFailed body) := by
  refine ⟨?_, ?_, ?_, ?_⟩
  · intro polls h
    cases polls <;> simp [poll_task, h]
  · intro ht hok
    have hnt : ¬ timeout ≤ t := by omega
    refine ⟨?_, ?_, ?_⟩
    · intro hst
      rcases hst with h|h <;> simp [poll_task, hnt, hok, h]
    · intro hst
      have h1 : ¬(extract_task_status r.body = "SUCCEEDED".toList ∨
          extract_task_status r.body = "SUCCESS".toList) := by
        rcases hst with h|h|h <;> rw [h] <;> decide
      rcases hst with h|h|h <;> simp [poll_task, hnt, hok, h1, h]
    · intro hst
      simp [not_or] at hst
      obtain ⟨n1, n2, n3, n4, n5⟩ := hst
      simp [poll_task, hnt, hok, n1, n2, n3, n4, n5]
  · intro s o
    simp [extract_task_status, J.get, JObj.get]
  · intro body h
    exact PollOutcome.noConfusion h

/-- C4 witness: the protocol theorem applied to a concrete SUCCEEDED poll. -/
theorem C4_poll_task_protocol_witness :
    poll_task 10 300 [c4Resp] 0 = .success c4Resp.body :=
  ((C4_poll_task_protocol 10 300 0 c4Resp []).2.1 (by decide) rfl).1 (by decide)

/-- C10: the JPEG marker-scan loop is total: every iteration that continues
strictly shrinks the unscanned suffix (equivalently, the scan index strictly
increases), because segment lengths below 2 or past the buffer are rejected;
and the full scan is exactly the iteration of that step. -/
theorem C10_jpeg_scan_terminates :
    (∀ rem rest : List Nat, jpegScanStep rem = .next rest → rest.length < rem.length) ∧
    (∀ rem r, jpegScanStep rem = .done r → jpegScanGo rem = r) ∧
    (∀ rem rest, jpegScanStep rem = .next rest → jpegScanGo rem = jpegScanGo rest) := by
  refine ⟨fun _ _ h => jpegScanStep_next_lt h, ?_, ?_⟩
  · intro rem r h
    rw [jpegScanGo]
    split
    · rename_i r' heq
      rw [h] at heq
      cases heq
      rfl
    · rename_i rest heq
      rw [h] at heq
      cases heq
  · intro rem rest h
    rw [jpegScanGo]
    split
    · rename_i r' heq
      rw [h] at heq
      cases heq
    · rename_i rest' heq
      rw [h] at heq
      cases heq
      rfl

/-- C10 witness: a concrete continuing step (a padding byte before the next
marker) shrinks the suffix, and the scan follows the step. -/
theorem C10_jpeg_scan_terminates_witness :
    jpegScanStep [0, 255, 217, 0, 0, 0, 0, 0, 0, 0] = .next [255, 217, 0, 0, 0, 0, 0, 0, 0] ∧
    ([255, 217, 0, 0, 0, 0, 0, 0, 0] : List Nat).length <
      ([0, 255, 217, 0, 0, 0, 0, 0, 0, 0] : List Nat).length ∧
    jpegScanGo [0, 255, 217, 0, 0, 0, 0, 0, 0, 0] = jpegScanGo [255, 217, 0, 0, 0, 0, 0, 0, 0] :=
  ⟨by decide,
   (C10_jpeg_scan_terminates.1 _ _ (by decide)),
   (C10_jpeg_scan_terminates.2.2 _ _ (by decide))⟩

theorem natToStrAux_mono : ∀ (n f1 f2 : Nat), n < f1 → n < f2 →
    natToStrAux f1 n = natToStrAux f2 n := by
  intro n
  induction n using Nat.strong_induction_on with
  | _ n ih =>
    intro f1 f2 h1 h2
    match f1, f2 with
    | fa + 1, fb + 1 =>
      by_cases h10 : n < 10
      · simp [natToStrAux, h10]
      · simp only [natToStrAux, if_neg h10]
        rw [ih (n / 10) (by omega) fa fb (by omega) (by omega)]

theorem natToStr_eq (n : Nat) :
    natToStr n = if n < 10 then [Char.ofNat (48 + n)]
      else natToStr (n / 10) ++ [Char.ofNat (48 + n % 10)] := by
  unfold natToStr
  by_cases h10 : n < 10
  · simp [natToStrAux, h10]
  · rw [if_neg h10, natToStrAux, if_neg h10,
      natToStrAux_mono (n / 10) n (n / 10 + 1) (by omega) (by omega)]

theorem natToStr_mem : ∀ (n : Nat) (c : Char), c ∈ natToStr n →
    ∃ d, d < 10 ∧ c = Char.ofNat (48 + d) := by
  intro n
  induction n using Nat.strong_induction_on with
  | _ n ih =>
    intro c hc
    rw [natToStr_eq] at hc
    by_cases h10 : n < 10
    · rw [if_pos h10] at hc
      simp at hc
      exact ⟨n, h10, hc⟩
    · rw [if_neg h10] at hc
      rcases List.mem_append.mp hc with h | h
      · exact ih (n / 10) (by omega) c h
      · simp at h
        exact ⟨n % 10, by omega, h⟩

theorem digitChar_facts (d : Nat) (hd : d < 10) :
    (Char.ofNat (48 + d)).isDigit = true ∧
    Char.ofNat (48 + d) ≠ 'x' ∧
    (Char.ofNat (48 + d)).isWhitespace = false ∧
    (Char.ofNat (48 + d)).toLower = Char.ofNat (48 + d) ∧
    (Char.ofNat (48 + d)).toNat = 48 + d := by
  interval_cases d <;> exact ⟨by decide, by decide, by decide, by decide, by decide⟩

theorem natToStr_ne_nil (n : Nat) : natToStr n ≠ [] := by
  rw [natToStr_eq]
  by_cases h10 : n < 10 <;> simp [h10]

theorem isDigits_natToStr (n : Nat) : isDigits (natToStr n) = true := by
  unfold isDigits
  rw [Bool.and_eq_true]
  constructor
  · simpa [List.isEmpty_iff] using natToStr_ne_nil n
  · rw [List.all_eq_true]
    intro c hc
    obtain ⟨d, hd, rfl⟩ := natToStr_mem n c hc
    exact (digitChar_facts d hd).1

theorem digitsToNat_natToStr : ∀ n : Nat, digitsToNat (natToStr n) = n := by
  intro n
  induction n using Nat.strong_induction_on with
  | _ n ih =>
    rw [natToStr_eq]
    by_cases h10 : n < 10
    · simp [h10, digitsToNat, (digitChar_facts n h10).2.2.2.2]
    · rw [if_neg h10]
      unfold digitsToNat
      rw [List.foldl_append]
      have hmod := (digitChar_facts (n % 10) (by omega)).2.2.2.2
      simp only [List.foldl_cons, List.foldl_nil, hmod]
      have := ih (n / 10) (by omega)
      unfold digitsToNat at this
      rw [this]
      omega

theorem dropWhile_eq_self_of_all {p : Char → Bool} :
    ∀ s : PyStr, (∀ c ∈ s, p c = false) → s.dropWhile p = s := by
  intro s h
  cases s with
  | nil => rfl
  | cons a rest =>
    rw [List.dropWhile_cons, h a (List.mem_cons_self a rest)]
    simp

theorem stripStr_eq_self (s : PyStr) (h : ∀ c ∈ s, c.isWhitespace = false) :
    stripStr s = s := by
  unfold stripStr
  rw [dropWhile_eq_self_of_all s h]
  rw [dropWhile_eq_self_of_all s.reverse (fun c hc => h c (List.mem_reverse.mp hc))]
  exact List.reverse_reverse s

theorem lowerStr_eq_self (s : PyStr) (h : ∀ c ∈ s, c.toLower = c) :
    lowerStr s = s := by
  unfold lowerStr
  rw [List.map_congr_left h]
  simp

theorem containsStr_mid (c : Char) : ∀ (a b : PyStr), containsStr (a ++ c :: b) [c] = true := by
  intro a
  induction a with
  | nil =>
    intro b
    simp [containsStr, List.isPrefixOf]
  | cons x rest ih =>
    intro b
    simp only [List.cons_append, containsStr, List.append_eq]
    rw [ih b]
    simp

theorem splitFirst_mid (c : Char) : ∀ (a b : PyStr), c ∉ a →
    splitFirst (a ++ c :: b) c = (a, b) := by
  intro a
  induction a with
  | nil =>
    intro b _
    simp [splitFirst]
  | cons x rest ih =>
    intro b hna
    have hxc : ¬x = c := fun h => hna (h ▸ List.mem_cons_self x rest)
    simp only [List.cons_append, splitFirst, if_neg hxc, List.append_eq]
    rw [ih b (fun h => hna (List.mem_cons_of_mem x h))]

theorem sizeText_char_facts (sw sh : Nat) (c : Char)
    (hc : c ∈ natToStr sw ++ 'x' :: natToStr sh) :
    c.isWhitespace = false ∧ c.toLower = c := by
  rcases List.mem_append.mp hc with h | h
  · obtain ⟨d, hd, rfl⟩ := natToStr_mem sw c h
    exact ⟨(digitChar_facts d hd).2.2.1, (digitChar_facts d hd).2.2.2.1⟩
  · rcases List.mem_cons.mp h with rfl | h
    · exact ⟨by decide, by decide⟩
    · obtain ⟨d, hd, rfl⟩ := natToStr_mem sh c h
      exact ⟨(digitChar_facts d hd).2.2.1, (digitChar_facts d hd).2.2.2.1⟩

theorem x_not_mem_natToStr (n : Nat) : 'x' ∉ natToStr n := by
  intro h
  obtain ⟨d, hd, he⟩ := natToStr_mem n 'x' h
  exact (digitChar_facts d hd).2.1 he.symm

theorem parse_size_natText (sw sh : Nat) :
    0 < sw → 0 < sh →
    parse_size (some (natToStr sw ++ 'x' :: natToStr sh)) = some (sw, sh) := by
  intro hw hh
  simp only [parse_size]
  have hne : ¬(natToStr sw ++ 'x' :: natToStr sh).isEmpty = true := by
    simp [List.isEmpty_iff]
  rw [if_neg (by simpa using hne)]
  rw [stripStr_eq_self _ (fun c hc => (sizeText_char_facts sw sh c hc).1)]
  rw [lowerStr_eq_self _ (fun c hc => (sizeText_char_facts sw sh c hc).2)]
  rw [containsStr_mid 'x' (natToStr sw) (natToStr sh)]
  simp only [Bool.not_true, Bool.false_eq_true, if_false]
  rw [splitFirst_mid 'x' (natToStr sw) (natToStr sh) (x_not_mem_natToStr sw)]
  simp only [isDigits_natToStr, Bool.and_self, Bool.not_true, Bool.false_eq_true, if_false]
  rw [digitsToNat_natToStr, digitsToNat_natToStr]
  rw [if_neg (by omega)]

theorem pyRound_natCast (n : Nat) : pyRound (n : ℚ) = (n : ℤ) := by
  unfold pyRound
  rw [Int.floor_natCast]
  rw [if_pos]
  push_cast
  norm_num

theorem fit_id (w h : Nat) (h1 : 512 ≤ w) (h2 : w ≤ 2048) (h3 : 512 ≤ h) (h4 : h ≤ 2048) :
    fit_size_within_bounds w h = ((w : ℤ), (h : ℤ)) := by
  unfold fit_size_within_bounds
  rw [if_neg (by omega)]
  dsimp only
  have e1 : ¬((2048:ℚ) < (w : ℚ) ∨ (2048:ℚ) < (h : ℚ)) := by
    push_neg
    constructor <;> exact_mod_cast by omega
  rw [if_neg e1]
  have e2 : ¬((w : ℚ) < 512 ∨ (h : ℚ) < 512) := by
    push_neg
    constructor <;> exact_mod_cast by omega
  rw [if_neg e2]
  rw [pyRound_natCast, pyRound_natCast]
  unfold clamp_size
  have hw : (512 : ℤ) ⊔ 2048 ⊓ (w : ℤ) = (w : ℤ) := by
    rw [inf_eq_right.mpr (by exact_mod_cast h2), sup_eq_right.mpr (by exact_mod_cast h1)]
  have hh2 : (512 : ℤ) ⊔ 2048 ⊓ (h : ℤ) = (h : ℤ) := by
    rw [inf_eq_right.mpr (by exact_mod_cast h4), sup_eq_right.mpr (by exact_mod_cast h3)]
  rw [hw, hh2]

theorem clamp_size_bounds (a b : ℤ) :
    512 ≤ (clamp_size a b).1 ∧ (clamp_size a b).1 ≤ 2048 ∧
    512 ≤ (clamp_size a b).2 ∧ (clamp_size a b).2 ≤ 2048 := by
  unfold clamp_size
  refine ⟨le_sup_left, ?_, le_sup_left, ?_⟩ <;>
    · rw [sup_le_iff]
      exact ⟨by norm_num, inf_le_left⟩

theorem fit_bounds (w h : Nat) :
    512 ≤ (fit_size_within_bounds w h).1 ∧ (fit_size_within_bounds w h).1 ≤ 2048 ∧
    512 ≤ (fit_size_within_bounds w h).2 ∧ (fit_size_within_bounds w h).2 ≤ 2048 := by
  unfold fit_size_within_bounds
  by_cases h0 : w = 0 ∨ h = 0
  · rw [if_pos h0]
    refine ⟨by norm_num, by norm_num, by norm_num, by norm_num⟩
  · rw [if_neg h0]
    dsimp only
    split <;> split <;> exact clamp_size_bounds _ _

theorem resolve_bounds (sw sh : Nat) (r : Option (Nat × Nat)) :
    512 ≤ (resolve_target_size sw sh r).1 ∧ (resolve_target_size sw sh r).1 ≤ 2048 ∧
    512 ≤ (resolve_target_size sw sh r).2 ∧ (resolve_target_size sw sh r).2 ≤ 2048 := by
  match r with
  | none => exact fit_bounds sw sh
  | some p =>
    simp only [resolve_target_size]
    by_cases he : p = (sw, sh)
    · rw [if_pos he]
      exact fit_bounds sw sh
    · rw [if_neg he]
      exact clamp_size_bounds _ _

theorem prepare_hit (penv : PrepEnv) (req : GenReq) (sw sh : Nat)
    (hprov : req.provider = Provider.alibaba) (htask : req.task_type = TaskType.image2image)
    (hin : optStrTruthy req.input_image = true)
    (hcrop : penv.autocrop_enabled = true) (hpers : penv.persist_enabled = false)
    (hload : penv.loadImage ((req.input_image).getD []) = some (sw, sh))
    (htarget : resolve_target_size sw sh (parse_size req.size) = ((sw : ℤ), (sh : ℤ))) :
    prepare_request_for_execution penv req =
      ({ req with size := some (natToStr sw ++ 'x' :: natToStr sh) }, []) := by
  unfold prepare_request_for_execution
  rw [if_neg (by simp [htask, hprov])]
  rw [hin]
  simp only [Bool.not_true, Bool.false_eq_true, if_false]
  rw [hcrop]
  simp only [Bool.not_true, Bool.false_eq_true, if_false]
  rw [hload]
  dsimp only
  rw [htarget]
  simp only [Int.toNat_natCast]
  rw [if_pos (by simp)]
  rw [hpers]
  simp

/-- C5 counterexample: an already-target-sized source (1024x1024) with no
explicit request size and persistence disabled: the returned request has its
`size` normalized to "1024x1024" while the original had none, so the request
is not returned "completely unmodified". The cleanup list is empty as
claimed. -/
theorem C5_counterexample :
    (prepare_request_for_execution penv5 req5).1.size = some "1024x1024".toList ∧
    req5.size = none ∧
    (prepare_request_for_execution penv5 req5).2 = [] := by
  have hp := prepare_hit penv5 req5 1024 1024 rfl rfl (by decide) rfl rfl rfl
    (by rw [show parse_size req5.size = none from rfl]
        show fit_size_within_bounds 1024 1024 = _
        exact fit_id 1024 1024 (by norm_num) (by norm_num) (by norm_num) (by norm_num))
  rw [hp]
  refine ⟨?_, rfl, rfl⟩
  show some (natToStr 1024 ++ 'x' :: natToStr 1024) = some "1024x1024".toList
  decide

/-- C5 (amended): for an Alibaba image-to-image request with an input image,
auto-crop enabled and persistence disabled, whose computed target equals the
source dimensions, `prepare_request_for_execution` returns the request with
only `size` normalized to the target text, an unchanged `input_image`, and an
empty cleanup list; a second run returns its own input unchanged; and when
`size` already equals the target text the original request is returned
unchanged. -/
theorem C5_prepare_idempotent (penv : PrepEnv) (req : GenReq) (sw sh : Nat)
    (hprov : req.provider = Provider.alibaba) (htask : req.task_type = TaskType.image2image)
    (hin : optStrTruthy req.input_image = true)
    (hcrop : penv.autocrop_enabled = true) (hpers : penv.persist_enabled = false)
    (hload : penv.loadImage ((req.input_image).getD []) = some (sw, sh))
    (htarget : resolve_target_size sw sh (parse_size req.size) = ((sw : ℤ), (sh : ℤ))) :
    prepare_request_for_execution penv req =
      ({ req with size := some (natToStr sw ++ 'x' :: natToStr sh) }, []) ∧
    prepare_request_for_execution penv (prepare_request_for_execution penv req).1 =
      ((prepare_request_for_execution penv req).1, []) ∧
    (req.size = some (natToStr sw ++ 'x' :: natToStr sh) →
      prepare_request_for_execution penv req = (req, [])) := by
  have hb := resolve_bounds sw sh (parse_size req.size)
  rw [htarget] at hb
  simp only at hb
  have hsw1 : 512 ≤ sw := by exact_mod_cast hb.1
  have hsw2 : sw ≤ 2048 := by exact_mod_cast hb.2.1
  have hsh1 : 512 ≤ sh := by exact_mod_cast hb.2.2.1
  have hsh2 : sh ≤ 2048 := by exact_mod_cast hb.2.2.2
  have h1 := prepare_hit penv req sw sh hprov htask hin hcrop hpers hload htarget
  refine ⟨h1, ?_, ?_⟩
  · have htarget2 : resolve_target_size sw sh
        (parse_size (some (natToStr sw ++ 'x' :: natToStr sh))) = ((sw : ℤ), (sh : ℤ)) := by
      rw [parse_size_natText sw sh (by omega) (by omega)]
      simp only [resolve_target_size, if_pos rfl]
      exact fit_id sw sh hsw1 hsw2 hsh1 hsh2
    rw [h1]
    dsimp only
    exact prepare_hit penv _ sw sh hprov htask hin hcrop hpers hload htarget2
  · intro hsize
    rw [h1, ← hsize]

/-- C5 witness: the amended theorem applied to the concrete 1024x1024
scenario. -/
theorem C5_prepare_idempotent_witness :
    prepare_request_for_execution penv5 req5 =
      ({ req5 with size := some (natToStr 1024 ++ 'x' :: natToStr 1024) }, []) :=
  (C5_prepare_idempotent penv5 req5 1024 1024 rfl rfl (by decide) rfl rfl rfl
    (by rw [show parse_size req5.size = none from rfl]
        show fit_size_within_bounds 1024 1024 = _
        exact fit_id 1024 1024 (by norm_num) (by norm_num) (by norm_num) (by norm_num))).1

theorem scale_min_eq (a w h : ℚ) (ha : 0 < a) (hw : 0 < w) (hh : 0 < h) :
    min (a / w) (a / h) = a / max w h := by
  rcases le_total w h with hwh | hwh
  · rw [max_eq_right hwh, min_eq_right]
    gcongr
  · rw [max_eq_left hwh, min_eq_left]
    gcongr

theorem scale_max_eq (a w h : ℚ) (ha : 0 < a) (hw : 0 < w) (hh : 0 < h) :
    max (a / w) (a / h) = a / min w h := by
  rcases le_total w h with hwh | hwh
  · rw [min_eq_left hwh, max_eq_left]
    gcongr
  · rw [min_eq_right hwh, max_eq_right]
    gcongr

theorem fit_eq_claimFit (w h : Nat) (hw : 0 < w) (hh : 0 < h) :
    fit_size_within_bounds w h = claimFit w h := by
  have hw0 : (0:ℚ) < w := by exact_mod_cast hw
  have hh0 : (0:ℚ) < h := by exact_mod_cast hh
  unfold fit_size_within_bounds claimFit
  rw [if_neg (by omega)]
  dsimp only
  rw [scale_min_eq 2048 w h (by norm_num) hw0 hh0]
  by_cases hc1 : 2048 < (w:ℚ) ∨ 2048 < (h:ℚ)
  · rw [if_pos hc1, if_pos (lt_max_iff.mpr hc1)]
    have hp1 : (0:ℚ) < (w:ℚ) * (2048 / max (w:ℚ) (h:ℚ)) := by positivity
    have hp2 : (0:ℚ) < (h:ℚ) * (2048 / max (w:ℚ) (h:ℚ)) := by positivity
    rw [scale_max_eq 512 _ _ (by norm_num) hp1 hp2]
    by_cases hc2 : (w:ℚ) * (2048 / max (w:ℚ) (h:ℚ)) < 512 ∨
        (h:ℚ) * (2048 / max (w:ℚ) (h:ℚ)) < 512
    · rw [if_pos hc2, if_pos (min_lt_iff.mpr hc2)]
    · rw [if_neg hc2, if_neg (fun hcc => hc2 (min_lt_iff.mp hcc))]
  · rw [if_neg hc1, if_neg (fun hcc => hc1 (lt_max_iff.mp hcc))]
    rw [scale_max_eq 512 _ _ (by norm_num) hw0 hh0]
    by_cases hc2 : (w:ℚ) < 512 ∨ (h:ℚ) < 512
    · rw [if_pos hc2, if_pos (min_lt_iff.mpr hc2)]
    · rw [if_neg hc2, if_neg (fun hcc => hc2 (min_lt_iff.mp hcc))]

/-- C3: for every source with positive dimensions, when no explicit size is
requested or it equals the source dimensions, the auto-crop target is computed
exactly as the claim describes (aspect-preserving downscale of the larger side
to 2048, then upscale of the smaller side to 512, rounding, then clamping each
side into [512, 2048]); in particular 3242x2160 with no explicit size gives
2048x1364. -/
theorem C3_autocrop_target (w h : Nat) (hw : 0 < w) (hh : 0 < h) :
    resolve_target_size w h none = claimFit w h ∧
    resolve_target_size w h (some (w, h)) = claimFit w h ∧
    fit_size_within_bounds 3242 2160 = (2048, 1364) := by
  refine ⟨?_, ?_, ?_⟩
  · show fit_size_within_bounds w h = claimFit w h
    exact fit_eq_claimFit w h hw hh
  · simp only [resolve_target_size, if_pos rfl]
    exact fit_eq_claimFit w h hw hh
  · norm_num [fit_size_within_bounds, pyRound, clamp_size, min_def, max_def]

/-- C3 witness: the theorem applied to the 3242x2160 scenario. -/
theorem C3_autocrop_target_witness :
    resolve_target_size 3242 2160 none = (2048, 1364) :=
  (C3_autocrop_target 3242 2160 (by norm_num) (by norm_num)).2.2

theorem euclidLoopAux_mono : ∀ (r f1 f2 l : Nat), r < f1 → r < f2 →
    euclidLoopAux f1 l r = euclidLoopAux f2 l r := by
  intro r
  induction r using Nat.strong_induction_on with
  | _ r ih =>
    intro f1 f2 l h1 h2
    match f1, f2 with
    | fa + 1, fb + 1 =>
      by_cases h : r = 0
      · simp [euclidLoopAux, h]
      · simp only [euclidLoopAux, if_neg h]
        have hm : l % r < r := Nat.mod_lt _ (Nat.pos_of_ne_zero h)
        exact ih (l % r) hm fa fb r (by omega) (by omega)

theorem euclidLoop_eq (l r : Nat) :
    euclidLoop l r = if r = 0 then l else euclidLoop r (l % r) := by
  by_cases h : r = 0
  · simp [euclidLoop, euclidLoopAux, h]
  · rw [if_neg h]
    unfold euclidLoop
    rw [euclidLoopAux, if_neg h]
    exact euclidLoopAux_mono (l % r) r (l % r + 1) r
      (Nat.mod_lt _ (Nat.pos_of_ne_zero h)) (by omega)

theorem euclidLoop_eq_gcd : ∀ (r l : Nat), euclidLoop l r = Nat.gcd r l := by
  intro r
  induction r using Nat.strong_induction_on with
  | _ r ih =>
    intro l
    by_cases h : r = 0
    · subst h
      rw [euclidLoop_eq]
      simp
    · rw [euclidLoop_eq, if_neg h, ih (l % r) (Nat.mod_lt _ (Nat.pos_of_ne_zero h)) r]
      exact (Nat.gcd_rec r l).symm

theorem size_to_aspect_natText (w h : Nat) (hw : 0 < w) (hh : 0 < h) :
    size_to_aspect (some (natToStr w ++ 'x' :: natToStr h)) =
      (if reduceAspect w h ∈ supportedAspects then some (reduceAspect w h) else none) := by
  simp only [size_to_aspect]
  rw [if_neg (by simp)]
  rw [containsStr_mid 'x' (natToStr w) (natToStr h)]
  simp only [Bool.not_true, Bool.false_eq_true, if_false]
  rw [lowerStr_eq_self _ (fun c hc => (sizeText_char_facts w h c hc).2)]
  rw [splitFirst_mid 'x' (natToStr w) (natToStr h) (x_not_mem_natToStr w)]
  simp only [isDigits_natToStr, Bool.and_self, Bool.not_true, Bool.false_eq_true, if_false]
  rw [digitsToNat_natToStr, digitsToNat_natToStr]
  rw [if_neg (by omega)]

/-- C7: for every size of the form `<width>x<height>` with positive decimal
integers, the ratio is reduced by the Euclidean GCD algorithm (the loop
computes `Nat.gcd`), and the Google payload carries
`generationConfig.imageConfig.aspectRatio` equal to the reduced ratio exactly
when that ratio is in {1:1, 3:4, 4:3, 9:16, 16:9}, and omits the field
entirely otherwise. -/
theorem C7_google_aspect (env : Env) (req : GenReq) (w h : Nat)
    (hw : 0 < w) (hh : 0 < h) :
    reduceAspect w h =
      natToStr (w / Nat.gcd w h) ++ ':' :: natToStr (h / Nat.gcd w h) ∧
    size_to_aspect (some (natToStr w ++ 'x' :: natToStr h)) =
      (if reduceAspect w h ∈ supportedAspects then some (reduceAspect w h) else none) ∧
    (req.task_type = TaskType.text2image → req.extra = JObj.nil →
      req.size = some (natToStr w ++ 'x' :: natToStr h) →
      payloadAspect (googleBuildPayload env req) =
        (if reduceAspect w h ∈ supportedAspects then
          some (.obj (.cons "aspectRatio".toList (.str (reduceAspect w h)) .nil))
        else none)) := by
  refine ⟨?_, size_to_aspect_natText w h hw hh, ?_⟩
  · unfold reduceAspect
    rw [euclidLoop_eq_gcd, Nat.gcd_comm]
  · intro htask hextra hsize
    unfold googleBuildPayload
    rw [htask, hextra, hsize]
    dsimp only
    rw [size_to_aspect_natText w h hw hh]
    by_cases hsup : reduceAspect w h ∈ supportedAspects
    · rw [if_pos hsup, if_pos hsup]
      simp [payloadAspect, toJObj, JObj.update, J.get, JObj.get, JObj.setKey]
    · rw [if_neg hsup, if_neg hsup]
      simp [payloadAspect, toJObj, JObj.update, J.get, JObj.get]

/-- C7 witness: 1920x1080 yields 16:9, 1000x1000 yields 1:1, and 1920x1081
yields no aspect-ratio field. -/
theorem C7_google_aspect_witness :
    size_to_aspect (some "1920x1080".toList) = some "16:9".toList ∧
    size_to_aspect (some "1000x1000".toList) = some "1:1".toList ∧
    size_to_aspect (some "1920x1081".toList) = none := by
  have h1 := (C7_google_aspect (Env.mk (Http.mk (fun _ _ => HttpResp.mk true 200 .null [] none) (fun _ => HttpResp.mk true 200 .null [] none)) (fun _ => none) (fun _ => none) (fun _ => []) []) (GenReq.mk .google "m".toList .text2image "p".toList none none none 1 none .nil) 1920 1080 (by norm_num) (by norm_num)).2.1
  refine ⟨?_, by decide, by decide⟩
  have he : natToStr 1920 ++ 'x' :: natToStr 1080 = "1920x1080".toList := by decide
  rw [he] at h1
  rw [h1]
  decide

theorem google_to_inline_data_no_post (env : Env) (input : Option PyStr) (u : PyStr) :
    NetCall.post u ∉ (google_to_inline_data env input).1 := by
  unfold google_to_inline_data
  repeat' split
  all_goals first
    | exact List.not_mem_nil _
    | simp

theorem googleBuildPayload_no_post (env : Env) (req : GenReq) (u : PyStr) :
    NetCall.post u ∉ (googleBuildPayload env req).1 := by
  have hin := google_to_inline_data_no_post env req.input_image u
  unfold googleBuildPayload
  cases htt : req.task_type with
  | text2image =>
    dsimp only
    exact List.not_mem_nil _
  | image2image =>
    dsimp only
    rcases hi : google_to_inline_data env req.input_image with ⟨tr2, res2⟩
    rw [hi] at hin
    cases res2 <;> simp_all

theorem resolve_url_config {cfg : AdapterCfg} {t : TaskType} {e : AErr}
    (h : resolve_url cfg t = .error e) : ∃ m, e = .config m := by
  cases t with
  | text2image =>
    unfold resolve_url at h
    by_cases hb : cfg.text2image_url.isEmpty = true
    · rw [if_pos hb] at h
      injection h with h2
      exact ⟨_, h2.symm⟩
    · rw [if_neg hb] at h
      cases h
  | image2image =>
    unfold resolve_url at h
    by_cases hb : cfg.image2image_url.isEmpty = true
    · rw [if_pos hb] at h
      injection h with h2
      exact ⟨_, h2.symm⟩
    · rw [if_neg hb] at h
      cases h

theorem baseGenerate_missing_key (provider : PyStr) (env : Env) (cfg : AdapterCfg)
    (bp : GenReq → J) (msg : PyStr) (req : GenReq) (hkey : cfg.api_key = []) :
    ∃ m, baseGenerate provider env cfg bp msg req = ([], .error (.config m)) := by
  unfold baseGenerate
  cases hres : resolve_url cfg req.task_type with
  | error e =>
    obtain ⟨m, rfl⟩ := resolve_url_config hres
    exact ⟨m, rfl⟩
  | ok url =>
    rw [hkey]
    exact ⟨msg, by simp⟩

theorem alibabaAsync_missing_key (env : Env) (acfg : AlibabaCfg)
    (pollSeq : List HttpResp) (req : GenReq) (ha : acfg.api_key = []) :
    ∃ m, alibabaGenerateAsync env acfg pollSeq req = ([], .error (.config m)) := by
  unfold alibabaGenerateAsync
  dsimp only
  by_cases hau : acfg.async_url.isEmpty
  · rw [if_pos hau]
    cases hres : resolve_url acfg.toAdapterCfg req.task_type with
    | error e =>
      obtain ⟨m, rfl⟩ := resolve_url_config hres
      exact ⟨m, rfl⟩
    | ok u =>
      rw [ha]
      exact ⟨"ALIBABA_API_KEY is missing".toList, by simp⟩
  · rw [if_neg hau]
    rw [ha]
    exact ⟨"ALIBABA_API_KEY is missing".toList, by simp⟩

theorem google_to_inline_data_error_kinds (env : Env) (input : Option PyStr) (e : AErr)
    (h : (google_to_inline_data env input).2 = .error e) :
    (∃ m, e = .config m) ∨ ∃ s, e = .httpStatus s := by
  unfold google_to_inline_data at h
  cases hp : parse_input_image env input with
  | none =>
    rw [hp] at h
    dsimp only at h
    injection h with h2
    exact .inl ⟨_, h2.symm⟩
  | some info =>
    rw [hp] at h
    dsimp only at h
    by_cases hd : info.1 = "data_uri".toList
    · rw [if_pos hd] at h
      dsimp only at h
      unfold inline_from_data_uri at h
      by_cases hc : (!containsStr info.2 [',']) = true
      · rw [if_pos hc] at h
        injection h with h2
        exact .inl ⟨_, h2.symm⟩
      · rw [if_neg hc] at h
        dsimp only at h
        simp at h
    · rw [if_neg hd] at h
      by_cases hu : info.1 = "url".toList
      · rw [if_pos hu] at h
        dsimp only at h
        by_cases hok : (!(env.http.get info.2).ok) = true
        · rw [if_pos hok] at h
          injection h with h2
          exact .inr ⟨_, h2.symm⟩
        · rw [if_neg hok] at h
          simp at h
      · rw [if_neg hu] at h
        simp at h

theorem googleBuildPayload_error_kinds (env : Env) (req : GenReq) (e : AErr)
    (h : (googleBuildPayload env req).2 = .error e) :
    (∃ m, e = .config m) ∨ ∃ s, e = .httpStatus s := by
  unfold googleBuildPayload at h
  cases htt : req.task_type with
  | text2image =>
    rw [htt] at h
    simp at h
  | image2image =>
    rw [htt] at h
    rcases hi : google_to_inline_data env req.input_image with ⟨tr2, res2⟩
    rw [hi] at h
    cases res2 with
    | error e2 =>
      dsimp only at h
      injection h with h2
      subst h2
      exact google_to_inline_data_error_kinds env req.input_image e2 (by rw [hi])
    | ok inline =>
      dsimp only at h
      simp at h

/-- C2 (amended): with a missing (empty) API key, the Alibaba and GLM adapters
issue no network call at all and fail with a fatal configuration error; the
Google adapter never issues the generation POST and, whenever payload
construction succeeds, fails with the missing-key configuration error — but
payload construction runs before the key check, so for a URL-referenced input
image it first fetches the image with a GET, and if that GET fails the adapter
fails with that HTTP status error instead of a configuration error. -/
theorem C2_missing_key (env : Env) (acfg : AlibabaCfg) (gcfg ccfg : AdapterCfg)
    (pollSeq : List HttpResp) (req : GenReq)
    (ha : acfg.api_key = []) (hg : gcfg.api_key = []) (hc : ccfg.api_key = []) :
    ((alibabaGenerate env acfg pollSeq req).1 = [] ∧
      ∃ m, (alibabaGenerate env acfg pollSeq req).2 = .error (.config m)) ∧
    ((glmGenerate env ccfg req).1 = [] ∧
      ∃ m, (glmGenerate env ccfg req).2 = .error (.config m)) ∧
    ((∀ u, NetCall.post u ∉ (googleGenerate env gcfg req).1) ∧
      (∀ url p, resolve_url gcfg req.task_type = .ok url →
        (googleBuildPayload env req).2 = .ok p →
        (googleGenerate env gcfg req).2 =
          .error (.config "GOOGLE_API_KEY is missing".toList)) ∧
      ((∃ m, (googleGenerate env gcfg req).2 = .error (.config m)) ∨
        ∃ s, (googleBuildPayload env req).2 = .error (.httpStatus s) ∧
          (googleGenerate env gcfg req).2 = .error (.httpStatus s))) := by
  refine ⟨?_, ?_, ?_⟩
  · unfold alibabaGenerate
    by_cases hm : acfg.async_mode
    · rw [if_pos hm]
      obtain ⟨m, hasync⟩ := alibabaAsync_missing_key env acfg pollSeq req ha
      rw [hasync]
      exact ⟨rfl, m, rfl⟩
    · rw [if_neg hm]
      obtain ⟨m, hbase⟩ := baseGenerate_missing_key "alibaba".toList env acfg.toAdapterCfg
        (alibabaBuildPayload env) "ALIBABA_API_KEY is missing".toList req ha
      rw [hbase]
      exact ⟨rfl, m, rfl⟩
  · obtain ⟨m, hbase⟩ := baseGenerate_missing_key "glm".toList env ccfg
      (glmBuildPayload env) "GLM_API_KEY is missing".toList req hc
    unfold glmGenerate
    rw [hbase]
    exact ⟨rfl, m, rfl⟩
  · unfold googleGenerate
    cases hres : resolve_url gcfg req.task_type with
    | error e =>
      obtain ⟨m, rfl⟩ := resolve_url_config hres
      refine ⟨fun u => by simp, ?_, .inl ⟨m, rfl⟩⟩
      intro url p hres2 _
      simp at hres2
    | ok url0 =>
      dsimp only
      rcases hbp : googleBuildPayload env req with ⟨tr, res⟩
      have hnp : ∀ u, NetCall.post u ∉ tr := by
        intro u
        have h0 := googleBuildPayload_no_post env req u
        rw [hbp] at h0
        exact h0
      cases res with
      | error e2 =>
        have hkinds := googleBuildPayload_error_kinds env req e2 (by rw [hbp])
        refine ⟨hnp, ?_, ?_⟩
        · intro url p h1 h2
          simp at h2
        · rcases hkinds with ⟨m, rfl⟩ | ⟨s, rfl⟩
          · exact .inl ⟨m, rfl⟩
          · exact .inr ⟨s, rfl, rfl⟩
      | ok p0 =>
        rw [hg]
        refine ⟨?_, ?_, .inl ⟨"GOOGLE_API_KEY is missing".toList, by simp⟩⟩
        · intro u
          simpa using hnp u
        · intro url p h1 h2
          simp

/-- C2 counterexample: the Google adapter with an empty API key and a
URL-referenced input image issues an HTTP GET for the image (payload
construction) before raising the missing-key configuration error, so "no HTTP
request of any kind is made first" fails. -/
theorem C2_counterexample :
    gcfg2.api_key = [] ∧
    (googleGenerate env2 gcfg2 req2).1 = [NetCall.get "http://img.example/x.png".toList] ∧
    ∃ m, (googleGenerate env2 gcfg2 req2).2 = .error (.config m) := by
  refine ⟨rfl, by decide, ?_⟩
  exact ⟨"GOOGLE_API_KEY is missing".toList, rfl⟩

/-- C2 witness: the amended theorem applied to concrete empty-key adapter
configurations. -/
theorem C2_missing_key_witness :
    ((alibabaGenerate env2 acfg2 [] req2).1 = [] ∧
      ∃ m, (alibabaGenerate env2 acfg2 [] req2).2 = .error (.config m)) ∧
    ((glmGenerate env2 ccfg2 req2).1 = [] ∧
      ∃ m, (glmGenerate env2 ccfg2 req2).2 = .error (.config m)) :=
  let h := C2_missing_key env2 acfg2 gcfg2 ccfg2 [] req2 rfl rfl rfl
  ⟨h.1, h.2.1⟩

/-- C9 counterexample: for the existing regular file at path `data:image/x`,
`parse_input_image` hits the data-URI prefix branch first and returns the raw
path string as the value, not a `data:<mime>;base64,<payload>` encoding of
the file bytes — so a payload built from this local-path input does contain
the raw path. -/
theorem C9_counterexample :
    env9.fs "data:image/x".toList = some [104, 105] ∧
    parse_input_image env9 (some "data:image/x".toList) =
      some ("data_uri".toList, "data:image/x".toList) ∧
    "data:image/x".toList ≠
      "data:".toList ++ ((env9.guessMime "data:image/x".toList).getD
        "application/octet-stream".toList) ++ ";base64,".toList ++ b64encode [104, 105] := by
  exact ⟨by decide, by decide, by decide⟩

/-- C9 (amended): for every input_image string that is a path to an existing
regular file and does not start with `http://`, `https://` or `data:image/`,
`parse_input_image` returns kind `data_uri` with value
`data:<mime>;base64,<payload>`, where `<mime>` is the guessed type (default
`application/octet-stream`) and `<payload>` the base64 encoding of the file's
bytes. -/
theorem C9_parse_local_path (env : Env) (s : PyStr) (bytes : List Nat)
    (hne : s ≠ []) (hurl : is_url s = false)
    (hdata : startsWithStr s "data:image/".toList = false)
    (hfs : env.fs s = some bytes) :
    parse_input_image env (some s) =
      some ("data_uri".toList,
        "data:".toList ++ ((env.guessMime s).getD "application/octet-stream".toList)
          ++ ";base64,".toList ++ b64encode bytes) := by
  have hie : s.isEmpty = false := by simpa [List.isEmpty_iff] using hne
  simp only [parse_input_image, hie, hurl, hdata, hfs]
  simp

/-- C9 witness: the amended theorem applied to `photo.png`. -/
theorem C9_parse_local_path_witness :
    parse_input_image env9b (some "photo.png".toList) =
      some ("data_uri".toList, "data:image/png;base64,AQID".toList) := by
  have h := C9_parse_local_path env9b "photo.png".toList [1, 2, 3]
    (by decide) (by decide) (by decide) (by decide)
  rw [h]
  decide

theorem beVal_be32enc (n : Nat) (h : n < 4294967296) : beVal (be32enc n) = n := by
  simp [beVal, be32enc]
  omega

theorem beVal_be16enc (n : Nat) (h : n < 65536) : beVal (be16enc n) = n := by
  simp [beVal, be16enc]
  omega

theorem le16Val_le16enc (n : Nat) (h : n < 65536) : le16Val (le16enc n) = n := by
  simp [le16Val, le16enc]
  omega

theorem le32Signed_le32enc (n : Nat) (h : n < 2147483648) :
    le32Signed (le32enc n) = (n : Int) := by
  simp only [le32Signed, le32enc]
  rw [if_pos (by omega)]
  congr 1
  omega

theorem png_correct (w h : Nat) (hdr tail : List Nat)
    (hw : w < 4294967296) (hh : h < 4294967296) (hhdr : hdr.length = 8) :
    png_dimensions (pngBytes w h hdr tail) = some (w, h) := by
  have hsiglen : (pngSig ++ hdr).length = 16 := by simp [pngSig, hhdr]
  unfold png_dimensions pngBytes
  rw [if_neg (by simp [pngSig, be32enc, hhdr]; omega)]
  rw [List.append_assoc pngSig hdr, List.take_left' (by simp [pngSig])]
  rw [if_neg (by simp)]
  rw [← List.append_assoc pngSig hdr, List.drop_left' hsiglen]
  rw [List.take_left' (by simp [be32enc])]
  rw [show (20 : Nat) = 16 + 4 by rfl, ← List.drop_drop,
    List.drop_left' hsiglen, List.drop_left' (by simp [be32enc] : (be32enc w).length = 4)]
  rw [List.take_left' (by simp [be32enc])]
  rw [beVal_be32enc w hw, beVal_be32enc h hh]

theorem gif_correct (w h : Nat) (tail : List Nat) (hw : w < 65536) (hh : h < 65536) :
    gif_dimensions (gifBytes w h tail) = some (w, h) := by
  have hsig : ("GIF89a".toList.map Char.toNat).length = 6 := by decide
  unfold gif_dimensions gifBytes
  rw [if_neg (by simp [le16enc])]
  rw [List.take_left' hsig]
  rw [if_neg (by decide)]
  rw [List.drop_left' hsig, List.take_left' (by simp [le16enc])]
  rw [show (8 : Nat) = 6 + 2 by rfl, ← List.drop_drop,
    List.drop_left' hsig, List.drop_left' (by simp [le16enc] : (le16enc w).length = 2)]
  rw [List.take_left' (by simp [le16enc])]
  rw [le16Val_le16enc w hw, le16Val_le16enc h hh]

theorem bmp_correct (w h : Nat) (hdr tail : List Nat)
    (hw0 : 0 < w) (hw : w < 2147483648) (hh0 : 0 < h) (hh : h < 2147483648)
    (hhdr : hdr.length = 16) :
    bmp_dimensions (bmpBytes w h hdr tail) = some (w, h) := by
  have hsiglen : (([66, 77] : List Nat) ++ hdr).length = 18 := by simp [hhdr]
  unfold bmp_dimensions bmpBytes
  rw [if_neg (by simp [le32enc, hhdr]; omega)]
  rw [List.append_assoc, List.take_left' (by simp : ([66, 77] : List Nat).length = 2)]
  rw [if_neg (by simp)]
  rw [← List.append_assoc, List.drop_left' hsiglen]
  rw [List.take_left' (by simp [le32enc])]
  rw [show (22 : Nat) = 18 + 4 by rfl, ← List.drop_drop,
    List.drop_left' hsiglen, List.drop_left' (by simp [le32enc] : (le32enc w).length = 4)]
  rw [List.take_left' (by simp [le32enc])]
  rw [le32Signed_le32enc w hw, le32Signed_le32enc h hh]
  have hcond : ¬((w : Int) ≤ 0 ∨ (h : Int) = 0) := by
    push_neg
    constructor
    · exact_mod_cast hw0
    · exact_mod_cast Nat.pos_iff_ne_zero.mp hh0
  rw [if_neg hcond]
  simp

theorem jpegScanGo_done {rem : List Nat} {r : Option (Nat × Nat)}
    (h : jpegScanStep rem = .done r) : jpegScanGo rem = r := by
  rw [jpegScanGo]
  split
  · rename_i r' heq
    rw [h] at heq
    cases heq
    rfl
  · rename_i rest heq
    rw [h] at heq
    cases heq

theorem jpegScanGo_next {rem rest : List Nat}
    (h : jpegScanStep rem = .next rest) : jpegScanGo rem = jpegScanGo rest := by
  rw [jpegScanGo]
  split
  · rename_i r' heq
    rw [h] at heq
    cases heq
  · rename_i rest' heq
    rw [h] at heq
    cases heq
    rfl

theorem jpegStep_skip (m : Nat) (payload s : List Nat)
    (hm : validMidMarker m) (hlen : payload.length + 2 < 65536) (hs : 10 ≤ s.length) :
    jpegScanStep (jpegSeg m payload ++ s) = .next s := by
  obtain ⟨hm256, hm255, hmd8, hmd9, hmda, hmsof⟩ := hm
  unfold jpegSeg
  unfold jpegScanStep
  rw [if_neg (by simp [be16enc]; omega)]
  simp only [List.cons_append]
  rw [if_neg (by simp)]
  have hdw : List.dropWhile (fun x => decide (x = 255))
      (255 :: m :: ((be16enc (payload.length + 2) ++ payload) ++ s))
      = m :: ((be16enc (payload.length + 2) ++ payload) ++ s) := by
    simp [List.dropWhile_cons, hm255]
  rw [hdw]
  dsimp only
  rw [if_neg (by omega)]
  rw [if_neg (by omega)]
  rw [if_neg (by simp [be16enc])]
  have htake : ((be16enc (payload.length + 2) ++ payload) ++ s).take 2 = be16enc (payload.length + 2) := by
    rw [List.append_assoc, List.take_left' (by simp [be16enc])]
  rw [htake, beVal_be16enc _ hlen]
  rw [if_neg (by simp only [be16enc, List.length_append, List.length_cons]; omega)]
  rw [if_neg (by simpa using hmsof)]
  congr 1
  rw [List.append_assoc, show payload.length + 2 = 2 + payload.length by omega, ← List.drop_drop,
    List.drop_left' (by simp [be16enc]), List.drop_left' rfl]

theorem dropWhile255 (m : Nat) (X : List Nat) (hm : m ≠ 255) :
    List.dropWhile (fun x => decide (x = 255)) (255 :: m :: X) = m :: X := by
  simp [List.dropWhile_cons, hm]

theorem take_two (a b : Nat) (R : List Nat) : (a :: b :: R).take 2 = [a, b] := rfl

theorem drop_three (a b c : Nat) (R : List Nat) : (a :: b :: c :: R).drop 3 = R := rfl

theorem drop_five (a b c d e : Nat) (R : List Nat) :
    (a :: b :: c :: d :: e :: R).drop 5 = R := rfl

theorem beVal_pair (a b : Nat) : beVal [a, b] = 256 * a + b := by
  simp [beVal]

theorem jpegStep_sof (m prec h w : Nat) (extra tail : List Nat)
    (hm : m ∈ sofMarkers) (hh : h < 65536) (hw : w < 65536)
    (hex : extra.length ≤ 65528) (hnz : 1 ≤ extra.length + tail.length) :
    jpegScanStep (jpegSeg m (prec :: be16enc h ++ be16enc w ++ extra) ++ tail) =
      .done (some (w, h)) := by
  have hmf : m ≠ 255 ∧ m ≠ 216 ∧ m ≠ 217 ∧ m ≠ 218 ∧ sofMarkers.contains m = true := by
    fin_cases hm <;> exact ⟨by decide, by decide, by decide, by decide, by decide⟩
  obtain ⟨hm255, hmd8, hmd9, hmda, hmc⟩ := hmf
  unfold jpegSeg jpegScanStep
  simp only [be16enc, List.length_cons, List.length_append, List.cons_append,
    List.append_assoc, List.nil_append]
  rw [if_neg (by first
    | (simp only [List.length_cons, List.length_append]; omega)
    | omega)]
  rw [if_neg (by omega)]
  rw [dropWhile255 m _ hm255]
  dsimp only
  rw [if_neg (by omega), if_neg (by omega)]
  rw [if_neg (by first
    | (simp only [List.length_cons, List.length_append]; omega)
    | omega)]
  rw [take_two, beVal_pair]
  rw [if_neg (by first
    | (simp only [List.length_cons, List.length_append]; omega)
    | omega)]
  rw [if_pos hmc]
  rw [if_neg (by first
    | (simp only [List.length_cons, List.length_append]; omega)
    | omega)]
  rw [drop_five, drop_three, take_two, take_two, beVal_pair, beVal_pair]
  simp only [ScanStep.done.injEq, Option.some.injEq, Prod.mk.injEq]
  constructor <;> omega

theorem jpegStep_sos (rest : List Nat) (h : 8 ≤ rest.length) :
    jpegScanStep (255 :: 218 :: rest) = .done none := by
  unfold jpegScanStep
  rw [if_neg (by simp only [List.length_cons]; omega)]
  dsimp only
  rw [if_neg (by omega)]
  rw [dropWhile255 218 rest (by omega)]
  dsimp only
  rw [if_neg (by omega), if_pos rfl]

theorem jpegGo_segs : ∀ (segs : List (Nat × List Nat)) (s : List Nat),
    (∀ p ∈ segs, validMidMarker p.1 ∧ p.2.length + 2 < 65536) → 10 ≤ s.length →
    jpegScanGo ((segs.map fun p => jpegSeg p.1 p.2).flatten ++ s) = jpegScanGo s := by
  intro segs
  induction segs with
  | nil => intro s _ _; simp
  | cons p ps ih =>
    intro s hv hs
    have hp := hv p (List.mem_cons_self p ps)
    rw [List.map_cons, List.flatten_cons, List.append_assoc]
    rw [jpegScanGo_next (jpegStep_skip p.1 p.2 _ hp.1 hp.2
      (by simp only [List.length_append]; omega))]
    exact ih _ (fun q hq => hv q (List.mem_cons_of_mem p hq)) hs

theorem jpeg_correct (segs : List (Nat × List Nat)) (m prec h w : Nat)
    (extra tail : List Nat)
    (hv : ∀ p ∈ segs, validMidMarker p.1 ∧ p.2.length + 2 < 65536)
    (hm : m ∈ sofMarkers) (hh : h < 65536) (hw : w < 65536)
    (hex : extra.length ≤ 65528) (hnz : 1 ≤ extra.length + tail.length) :
    jpeg_dimensions (jpegBytes segs m prec h w extra tail) = some (w, h) := by
  unfold jpeg_dimensions jpegBytes
  rw [if_neg (by simp only [List.length_cons, List.length_append, jpegSeg, be16enc]; omega)]
  rw [if_neg (by simp)]
  show jpegScanGo ((segs.map fun s => jpegSeg s.1 s.2).flatten ++
    jpegSeg m (prec :: be16enc h ++ be16enc w ++ extra) ++ tail) = some (w, h)
  rw [List.append_assoc]
  rw [jpegGo_segs segs _ hv
    (by simp only [List.length_append, jpegSeg, be16enc, List.length_cons]; omega)]
  exact jpegScanGo_done (jpegStep_sof m prec h w extra tail hm hh hw hex hnz)

theorem jpeg_sos_none (segs : List (Nat × List Nat)) (rest : List Nat)
    (hv : ∀ p ∈ segs, validMidMarker p.1 ∧ p.2.length + 2 < 65536)
    (hrest : 8 ≤ rest.length) :
    jpeg_dimensions (255 :: 216 ::
      (segs.map fun p => jpegSeg p.1 p.2).flatten ++ 255 :: 218 :: rest) = none := by
  unfold jpeg_dimensions
  rw [if_neg (by simp only [List.length_cons, List.length_append]; omega)]
  rw [if_neg (by simp)]
  show jpegScanGo ((segs.map fun p => jpegSeg p.1 p.2).flatten ++ 255 :: 218 :: rest) = none
  rw [jpegGo_segs segs _ hv (by simp only [List.length_cons]; omega)]
  exact jpegScanGo_done (jpegStep_sos rest hrest)

theorem png_none_head (b : Nat) (data : List Nat) (hb : b ≠ 137) :
    png_dimensions (b :: data) = none := by
  unfold png_dimensions
  by_cases hlen : (b :: data).length < 24
  · rw [if_pos hlen]
  · rw [if_neg hlen, if_pos]
    intro hsig
    rw [List.take_cons (by omega)] at hsig
    exact hb (by injection hsig)

theorem jpeg_none_head (b : Nat) (data : List Nat) (hb : b ≠ 255) :
    jpeg_dimensions (b :: data) = none := by
  unfold jpeg_dimensions
  by_cases hlen : (b :: data).length < 4
  · rw [if_pos hlen]
  · rw [if_neg hlen, if_pos]
    intro hsig
    rw [List.take_cons (by omega)] at hsig
    exact hb (by injection hsig)

theorem gif_none_head (b : Nat) (data : List Nat) (hb : b ≠ 71) :
    gif_dimensions (b :: data) = none := by
  have h87 : "GIF87a".toList.map Char.toNat = [71, 73, 70, 56, 55, 97] := by decide
  have h89 : "GIF89a".toList.map Char.toNat = [71, 73, 70, 56, 57, 97] := by decide
  unfold gif_dimensions
  rw [h87, h89]
  by_cases hlen : (b :: data).length < 10
  · rw [if_pos hlen]
  · rw [if_neg hlen, if_pos]
    constructor <;>
      · intro hsig
        rw [List.take_cons (by omega)] at hsig
        exact hb (by injection hsig)

theorem bmp_none_head (b : Nat) (data : List Nat) (hb : b ≠ 66) :
    bmp_dimensions (b :: data) = none := by
  unfold bmp_dimensions
  by_cases hlen : (b :: data).length < 26
  · rw [if_pos hlen]
  · rw [if_neg hlen, if_pos]
    intro hsig
    rw [List.take_cons (by omega)] at hsig
    exact hb (by injection hsig)

/-- C8: the image-dimension codec is a total function returning either a
(width, height) pair or no match (never an exception in the model); it
recovers the exact encoded dimensions of well-formed PNG, JPEG (any run of
skippable marker segments before a SOF frame), GIF and BMP buffers; and a
JPEG whose Start-Of-Scan marker precedes any Start-Of-Frame yields no
match. -/
theorem C8_image_codec :
    (∀ data : List Nat, extract_dimensions data = none ∨
      ∃ p, extract_dimensions data = some p) ∧
    (∀ w h hdr tail, w < 4294967296 → h < 4294967296 → hdr.length = 8 →
      extract_dimensions (pngBytes w h hdr tail) = some (w, h)) ∧
    (∀ (segs : List (Nat × List Nat)) (m prec h w : Nat) (extra tail : List Nat),
      (∀ p ∈ segs, validMidMarker p.1 ∧ p.2.length + 2 < 65536) →
      m ∈ sofMarkers → h < 65536 → w < 65536 → extra.length ≤ 65528 →
      1 ≤ extra.length + tail.length →
      extract_dimensions (jpegBytes segs m prec h w extra tail) = some (w, h)) ∧
    (∀ w h tail, w < 65536 → h < 65536 →
      extract_dimensions (gifBytes w h tail) = some (w, h)) ∧
    (∀ w h hdr tail, 0 < w → w < 2147483648 → 0 < h → h < 2147483648 →
      hdr.length = 16 → extract_dimensions (bmpBytes w h hdr tail) = some (w, h)) ∧
    (∀ (segs : List (Nat × List Nat)) (rest : List Nat),
      (∀ p ∈ segs, validMidMarker p.1 ∧ p.2.length + 2 < 65536) →
      8 ≤ rest.length →
      extract_dimensions (255 :: 216 :: (segs.map fun p => jpegSeg p.1 p.2).flatten
        ++ 255 :: 218 :: rest) = none) := by
  refine ⟨?_, ?_, ?_, ?_, ?_, ?_⟩
  · intro data
    cases hx : extract_dimensions data with
    | none => exact Or.inl rfl
    | some p => exact Or.inr ⟨p, rfl⟩
  · intro w h hdr tail hw hh hhdr
    unfold extract_dimensions
    rw [png_correct w h hdr tail hw hh hhdr]
  · intro segs m prec h w extra tail hv hm hh hw hex hnz
    have hpng : png_dimensions (jpegBytes segs m prec h w extra tail) = none := by
      rw [jpegBytes]
      exact png_none_head 255 _ (by omega)
    unfold extract_dimensions
    rw [hpng, jpeg_correct segs m prec h w extra tail hv hm hh hw hex hnz]
  · intro w h tail hw hh
    have h89 : "GIF89a".toList.map Char.toNat = [71, 73, 70, 56, 57, 97] := by decide
    have hform : gifBytes w h tail =
        71 :: (73 :: 70 :: 56 :: 57 :: 97 :: (le16enc w ++ (le16enc h ++ tail))) := by
      unfold gifBytes
      rw [h89]
      simp
    have hpng : png_dimensions (gifBytes w h tail) = none := by
      rw [hform]
      exact png_none_head 71 _ (by omega)
    have hjpeg : jpeg_dimensions (gifBytes w h tail) = none := by
      rw [hform]
      exact jpeg_none_head 71 _ (by omega)
    unfold extract_dimensions
    rw [hpng, hjpeg, gif_correct w h tail hw hh]
  · intro w h hdr tail hw0 hw hh0 hh hhdr
    have hform : bmpBytes w h hdr tail =
        66 :: (77 :: (hdr ++ (le32enc w ++ (le32enc h ++ tail)))) := by
      unfold bmpBytes
      simp
    have hpng : png_dimensions (bmpBytes w h hdr tail) = none := by
      rw [hform]
      exact png_none_head 66 _ (by omega)
    have hjpeg : jpeg_dimensions (bmpBytes w h hdr tail) = none := by
      rw [hform]
      exact jpeg_none_head 66 _ (by omega)
    have hgif : gif_dimensions (bmpBytes w h hdr tail) = none := by
      rw [hform]
      exact gif_none_head 66 _ (by omega)
    unfold extract_dimensions
    rw [hpng, hjpeg, hgif, bmp_correct w h hdr tail hw0 hw hh0 hh hhdr]
  · intro segs rest hv hrest
    have hpng : png_dimensions (255 :: 216 ::
        (segs.map fun p => jpegSeg p.1 p.2).flatten ++ 255 :: 218 :: rest) = none :=
      png_none_head 255 _ (by omega)
    have hgif : gif_dimensions (255 :: 216 ::
        (segs.map fun p => jpegSeg p.1 p.2).flatten ++ 255 :: 218 :: rest) = none :=
      gif_none_head 255 _ (by omega)
    have hbmp : bmp_dimensions (255 :: 216 ::
        (segs.map fun p => jpegSeg p.1 p.2).flatten ++ 255 :: 218 :: rest) = none :=
      bmp_none_head 255 _ (by omega)
    unfold extract_dimensions
    rw [hpng, jpeg_sos_none segs rest hv hrest, hgif, hbmp]

/-- C8 witness: the codec theorem applied to concrete PNG, GIF and JPEG
buffers. -/
theorem C8_image_codec_witness :
    extract_dimensions (pngBytes 2 3 [0, 0, 0, 13, 73, 72, 68, 82] []) = some (2, 3) ∧
    extract_dimensions (gifBytes 4 5 []) = some (4, 5) ∧
    extract_dimensions (jpegBytes [] 192 8 6 7 [0] []) = some (7, 6) :=
  ⟨C8_image_codec.2.1 2 3 _ [] (by norm_num) (by norm_num) rfl,
   C8_image_codec.2.2.2.1 4 5 [] (by norm_num) (by norm_num),
   C8_image_codec.2.2.1 [] 192 8 6 7 [0] [] (by simp) (by decide) (by norm_num)
     (by norm_num) (by decide) (by decide)⟩
